import Mathlib

/-!
# Verification of the htx_tap_dashboard column-detection / aggregation pipeline

Shallow embedding of the core pipeline of the repository:

* `column_detect.py` — `normalize_columns`, `find_col` and the per-role
  `find_*_col` detectors, `detect_schema`;
* `date_filter.py` — `CANDIDATE_DATE_COLUMNS`, `find_date_column`,
  `apply_date_range`;
* `analysis_minimal.py` — `compute_preset_window`, `get_data_coverage`,
  `run_full_analysis`, `_empty_response`, `_compute_kpis`, the three chart
  builders and the three table builders;
* `htx_tap_analytics.py` — `normalize_column_name`, `find_column_fuzzy`,
  and the state effect of `analyze_bottle_conversion` on the shared sales
  table.

Modelling conventions:

* A pandas DataFrame is a `Table`: a header list plus rows of cells.
  `df.empty` is `rows = [] ∨ headers = []` (a frame with no elements).
* A cell records the values the external pandas parsers assign to it:
  `Cell.cdate ts` is a cell that `pd.to_datetime(..., errors='coerce')`
  parses to the timestamp `ts` (seconds since 0001-01-01 00:00 UTC, proleptic
  Gregorian); `Cell.cnum q` is a numeric cell; `Cell.cnull` is NaN/None;
  other cells coerce to NaT/NaN under the respective parsers.
* Python floats are modelled as rationals; `pandas.Series.std` returns the
  square root of the sample variance, which is irrational-valued, so table
  cells carry the variance under the `KVal.sqrtv` constructor (denoting its
  square root); a float infinity arising from division by zero is `KVal.infv`.
* Python dicts are insertion-ordered association lists; overwriting a key
  keeps its position.
-/

namespace HTX

/-! ## String utilities

Python's string methods are modelled on the character sequence (`String.data`)
with their ASCII semantics, which the repository's headers and tokens use. -/

/-- Python's substring test `sub in l` on character lists. -/
def listContainsSub (l sub : List Char) : Bool :=
  (List.range (l.length + 1)).any (fun i => sub.isPrefixOf (l.drop i))

/-- Python's substring test `sub in s`. -/
def strContainsSub (s sub : String) : Bool :=
  listContainsSub s.data sub.data

/-- Python `str.lower()`. -/
def lowerStr (s : String) : String :=
  String.mk (s.data.map Char.toLower)

/-- Python `str.strip()` (whitespace from both ends). -/
def trimStr (s : String) : String :=
  String.mk (((s.data.dropWhile Char.isWhitespace).reverse.dropWhile Char.isWhitespace).reverse)

/-- Python `str.endswith(suffix)`. -/
def strEndsWith (s suffix : String) : Bool :=
  suffix.data.isSuffixOf s.data

/-- Python slicing `s[:-n]` (`preset[:-1]` drops the unit character). -/
def strDropRight (s : String) (n : ℕ) : String :=
  String.mk (s.data.take (s.data.length - n))

/-- Python `int(s)` on an unsigned digit string; `none` models the
`ValueError` on anything else (the looser shapes `int` accepts — signs,
surrounding whitespace, underscores — do not occur in the pipeline). -/
def natFromDigits (l : List Char) : Option ℕ :=
  if l ≠ [] ∧ l.all Char.isDigit then
    some (l.foldl (fun a c => a * 10 + (c.toNat - 48)) 0)
  else none

/-- Python `int(s)` (see `natFromDigits`). -/
def strToNat? (s : String) : Option ℕ :=
  natFromDigits s.data

/-- Python `str.split(sep)` for a single-character separator on char lists. -/
def splitChar (sep : Char) : List Char → List (List Char)
  | [] => [[]]
  | c :: rest =>
    match splitChar sep rest with
    | x :: xs => if c = sep then [] :: x :: xs else (c :: x) :: xs
    | [] => if c = sep then [[], []] else [[c]]

/-- Truthiness of an optional Python string: `None` and `""` are falsy. -/
def truthyS : Option String → Bool
  | none => false
  | some s => !(s == "")

/-! ## Cells and tables -/

/-- A cell value, recorded together with the result the pandas coercions give
it (see the module docstring). -/
inductive Cell
  | cnum (q : ℚ)
  | cstr (s : String)
  | cbool (b : Bool)
  | cdate (ts : ℕ)
  | cnull
deriving DecidableEq

/-- `pd.to_datetime(cell, errors='coerce')`: date-like cells parse, all others
coerce to NaT. -/
def toDatetime? : Cell → Option ℕ
  | .cdate ts => some ts
  | _ => none

/-- `pd.to_numeric(cell, errors='coerce')`: numeric cells parse, all others
coerce to NaN. -/
def toNumeric? : Cell → Option ℚ
  | .cnum q => some q
  | _ => none

/-- In-memory tabular dataset: ordered headers and rows of cells. -/
structure Table where
  headers : List String
  rows : List (List Cell)
deriving DecidableEq

/-- `df.empty` (no elements) together with the `len(df.columns) == 0` guard
used by the detectors. -/
def Table.isEmptyDf (t : Table) : Bool :=
  t.rows.isEmpty || t.headers.isEmpty

/-- Cell of a row at column index `i`; an index outside the row is a
missing value (per-row schema drift degrades to null, it never errors). -/
def cellAt (r : List Cell) (i : ℕ) : Cell :=
  r.getD i Cell.cnull

/-- Position of a header in the header list. -/
def colIdx (t : Table) (c : String) : Option ℕ :=
  t.headers.findIdx? (fun h => h == c)

/-- The cells of column `i`. -/
def colCells (t : Table) (i : ℕ) : List Cell :=
  t.rows.map (fun r => cellAt r i)

/-- `Series.sum()` over a numeric column: NaN values are skipped. -/
def sumNums (cs : List Cell) : ℚ :=
  (cs.filterMap toNumeric?).sum

/-- `Series.nunique()`: number of distinct non-null values. -/
def nuniqueCells (cs : List Cell) : ℕ :=
  ((cs.filter (fun c => c ≠ Cell.cnull)).dedup).length

/-- Whether a column has pandas dtype `bool` (every cell a native boolean). -/
def seriesIsBool (cs : List Cell) : Bool :=
  cs.all (fun c => match c with | .cbool _ => true | _ => false)

/-- Distinct values of a list in first-occurrence order (pandas group keys are
reported in sorted order; only the set of keys matters to any claim below,
so first-occurrence order is used as the deterministic enumeration). -/
def firstUniques (cs : List Cell) : List Cell :=
  cs.foldl (fun acc c => if c ∈ acc then acc else acc ++ [c]) []

/-! ## Python dict model and `column_detect.py` -/

/-- Python dict assignment `d[k] = v`: an existing key keeps its position and
gets the new value, a fresh key is appended. -/
def insertPy (d : List (String × String)) (k v : String) : List (String × String) :=
  if d.any (fun p => p.1 == k) then
    d.map (fun p => if p.1 == k then (k, v) else p)
  else d ++ [(k, v)]

/-- `normalize_columns`: the dict `{col.lower(): col for col in df.columns}`
(the emptiness guard lives in `find_col`, which consults it). -/
def normalize_columns (headers : List String) : List (String × String) :=
  headers.foldl (fun d h => insertPy d (lowerStr h) h) []

/-- Python dict lookup. -/
def dictLookup (d : List (String × String)) (k : String) : Option String :=
  (d.find? (fun p => p.1 == k)).map (fun p => p.2)

inductive MatchMode
  | exact
  | contains
deriving DecidableEq

/-- Phase 1 of `find_col`: first candidate (in priority order) whose lowercase
form is a key of the normalized dict. -/
def findColPhase1 (d : List (String × String)) (candidates : List String) : Option String :=
  candidates.findSome? (fun c => dictLookup d (lowerStr c))

/-- Phase 2 of `find_col`: first candidate (in priority order) whose lowercase
form is a substring of some dict key, scanning keys in insertion order. -/
def findColPhase2 (d : List (String × String)) (candidates : List String) : Option String :=
  candidates.findSome? (fun c =>
    d.findSome? (fun p => if strContainsSub p.1 (lowerStr c) then some p.2 else none))

/-- `find_col` from column_detect.py (the normalized dict is computed once;
phase 1 always precedes phase 2, and phase 2 runs only in contains mode). -/
def find_col (t : Table) (candidates : List String) (mode : MatchMode) : Option String :=
  if t.isEmptyDf then none
  else
    match findColPhase1 (normalize_columns t.headers) candidates with
    | some v => some v
    | none =>
      if mode = MatchMode.contains then findColPhase2 (normalize_columns t.headers) candidates
      else none

/-- `CANDIDATE_DATE_COLUMNS` from date_filter.py (priority order). -/
def CANDIDATE_DATE_COLUMNS : List String :=
  ["sent date", "Sent Date",
   "order date", "Order Date",
   "date",
   "datetime",
   "created_at",
   "opened_at",
   "closed_at",
   "order_date",
   "business_date",
   "Business Date",
   "timestamp",
   "transaction_date",
   "sale_date",
   "Opened",
   "Created",
   "Close Date", "close date",
   "Check Opened", "check opened",
   "Check Closed", "check closed"]

def find_amount_col (t : Table) : Option String :=
  find_col t
    ["net_price", "net price", "net_sales", "net sales",
     "sales", "revenue", "amount", "total", "price"] .contains

def find_datetime_col (t : Table) : Option String :=
  find_col t
    (CANDIDATE_DATE_COLUMNS ++
      ["business_date", "order_date", "order date", "created", "created_at",
       "closed_at", "opened_at", "timestamp", "transaction_date", "sale_date",
       "sent date", "Sent Date", "check opened", "Check Opened",
       "check closed", "Check Closed", "close date", "Close Date"]) .contains

def find_employee_col (t : Table) : Option String :=
  find_col t
    ["server", "employee", "employee_name", "staff",
     "cashier", "user", "username", "server name", "Server Name",
     "Server", "Employee", "Created By", "Bartender"] .contains

def find_item_col (t : Table) : Option String :=
  find_col t ["item", "item_name", "menu_item", "product", "product_name"] .contains

def find_category_col (t : Table) : Option String :=
  find_col t ["category", "item_category", "product_category", "type", "department"] .contains

def find_void_flag_col (t : Table) : Option String :=
  find_col t ["is_void", "is_voided", "voided", "void", "void_flag"] .contains

def find_discount_amount_col (t : Table) : Option String :=
  find_col t ["discount", "discount_amount", "discounted_amount", "promo", "comp"] .contains

def find_removal_flag_or_amount_col (t : Table) : Option String :=
  find_col t ["removed", "removal", "is_removed", "delete", "deleted"] .contains

def find_reason_col (t : Table) : Option String :=
  find_col t
    ["void_reason", "reason", "comp_reason", "removal_reason",
     "note", "comment", "description"] .contains

def find_order_id_col (t : Table) : Option String :=
  find_col t
    ["order_id", "check_id", "tab_id", "ticket_id", "receipt", "transaction_id",
     "Order Id", "Check Id", "Ticket Id", "Receipt Number", "Transaction Id",
     "order id", "check id", "ticket id", "receipt number", "transaction id"] .contains

/-- The full role → header mapping. -/
structure Schema where
  amount : Option String := none
  datetime : Option String := none
  employee : Option String := none
  item : Option String := none
  category : Option String := none
  void_flag : Option String := none
  discount_amount : Option String := none
  removal_flag_or_amount : Option String := none
  reason : Option String := none
  order_id : Option String := none
deriving DecidableEq

/-- `detect_schema` from column_detect.py. -/
def detect_schema (t : Table) : Schema :=
  { amount := find_amount_col t,
    datetime := find_datetime_col t,
    employee := find_employee_col t,
    item := find_item_col t,
    category := find_category_col t,
    void_flag := find_void_flag_col t,
    discount_amount := find_discount_amount_col t,
    removal_flag_or_amount := find_removal_flag_or_amount_col t,
    reason := find_reason_col t,
    order_id := find_order_id_col t }

/-! ## `htx_tap_analytics.py` fuzzy resolver -/

/-- `normalize_column_name`: lowercase, strip, map `_` and `-` to spaces, then
delete the spaces. -/
def normalize_column_name (name : String) : String :=
  String.mk
    (((trimStr (lowerStr name)).data.map
        (fun c => if c == '_' || c == '-' then ' ' else c)).filter
      (fun c => c ≠ ' '))

/-- The normalized-header dict of `find_column_fuzzy`: a normalized form
already seen keeps its first header (`if normalized not in ...`). -/
def fuzzyDict (headers : List String) : List (String × String) :=
  headers.foldl
    (fun d h =>
      let n := normalize_column_name h
      if d.any (fun p => p.1 == n) then d else d ++ [(n, h)]) []

/-- `find_column_fuzzy` from htx_tap_analytics.py. -/
def find_column_fuzzy (t : Table) (candidates : List String) : Option String :=
  if t.isEmptyDf then none
  else candidates.findSome? (fun c => dictLookup (fuzzyDict t.headers) (normalize_column_name c))

/-! ## Calendar arithmetic (civil ↔ day-number, ISO strings)

Day numbers count days since 0001-01-01 (proleptic Gregorian); day 0 is a
Monday. Timestamps count seconds since that day's midnight UTC. -/

structure Civil where
  year : ℕ
  month : ℕ
  day : ℕ
deriving DecidableEq

/-- Civil date of a day number (standard era/day-of-era decomposition of the
Gregorian calendar, shifted to the 0001-01-01 epoch). -/
def civilFromDays (n : ℕ) : Civil :=
  let z := n + 306
  let era := z / 146097
  let doe := z % 146097
  let yoe := (doe - doe / 1460 + doe / 36524 - doe / 146096) / 365
  let doy := doe - (365 * yoe + yoe / 4 - yoe / 100)
  let mp := (5 * doy + 2) / 153
  let d := doy - (153 * mp + 2) / 5 + 1
  let m := if mp < 10 then mp + 3 else mp - 9
  ⟨yoe + era * 400 + (if m ≤ 2 then 1 else 0), m, d⟩

/-- Day number of a civil date (inverse of `civilFromDays` on valid dates). -/
def daysOfCivil (y m d : ℕ) : ℕ :=
  let y' := if m ≤ 2 then y - 1 else y
  let era := y' / 400
  let yoe := y' % 400
  let mp := if 2 < m then m - 3 else m + 9
  let doy := (153 * mp + 2) / 5 + (d - 1)
  let doe := yoe * 365 + yoe / 4 - yoe / 100 + doy
  era * 146097 + doe - 306

/-- Decimal rendering left-padded with zeros to width `w`. -/
def padNum (w n : ℕ) : String :=
  let s := toString n
  String.mk (List.replicate (w - s.data.length) '0') ++ s

/-- `date.isoformat()` of a day number. -/
def isoOfDay (n : ℕ) : String :=
  let c := civilFromDays n
  padNum 4 c.year ++ "-" ++ padNum 2 c.month ++ "-" ++ padNum 2 c.day

/-- `pd.to_datetime` on a date-only ISO string (the only shape the pipeline
feeds it): strict `YYYY-MM-DD`, validated by the civil round-trip. -/
def parseIsoDay (s : String) : Option ℕ :=
  match splitChar '-' s.data with
  | [ys, ms, ds] =>
    match natFromDigits ys, natFromDigits ms, natFromDigits ds with
    | some y, some m, some d =>
      if civilFromDays (daysOfCivil y m d) = ⟨y, m, d⟩ then some (daysOfCivil y m d)
      else none
    | _, _, _ => none
  | _ => none

/-- Hour of day of a timestamp (`Timestamp.hour`). -/
def hourOfTs (ts : ℕ) : ℕ := ts / 3600 % 24

/-- Weekday of a timestamp, 0 = Monday (`Timestamp.dayofweek`); day 0 of the
epoch (0001-01-01) is a Monday. -/
def dayIdxOfTs (ts : ℕ) : ℕ := ts / 86400 % 7

/-! ## `compute_preset_window` -/

/-- Days encoded by a preset token. `none` models the `ValueError` that
`int()` raises on a malformed digit string (uncaught inside
`compute_preset_window`, caught by `run_full_analysis`). -/
def parsePresetDays (preset : String) : Option ℕ :=
  if strEndsWith preset "d" then strToNat? (strDropRight preset 1)
  else if strEndsWith preset "y" then (strToNat? (strDropRight preset 1)).map (fun n => n * 365)
  else if strEndsWith preset "w" then (strToNat? (strDropRight preset 1)).map (fun n => n * 7)
  else some 30

/-- `compute_preset_window` from analysis_minimal.py: the window day numbers
of a preset relative to the dataset's max date. -/
def preset_window_days (preset : String) (maxDate : ℕ) : Option (ℕ × ℕ) :=
  (parsePresetDays preset).map (fun days => (maxDate + 1 - days, maxDate + 1))

/-- `compute_preset_window`'s return value: both window bounds as date-only
ISO strings (start inclusive, end exclusive). -/
def compute_preset_window (preset : String) (maxDate : ℕ) : Option (String × String) :=
  (preset_window_days preset maxDate).map (fun p => (isoOfDay p.1, isoOfDay p.2))

/-! ## `date_filter.py`: `find_date_column` and `apply_date_range` -/

/-- `find_date_column`: the schema-provided column short-circuits when truthy
and present; otherwise the first candidate (in priority order) with a
case-insensitive header match wins, taking the earliest such header. -/
def find_date_column (t : Table) (schemaDt : Option String) : Option String :=
  if t.isEmptyDf then none
  else
    let bySchema : Option String :=
      match schemaDt with
      | some c => if c ≠ "" ∧ c ∈ t.headers then some c else none
      | none => none
    match bySchema with
    | some c => some c
    | none =>
      CANDIDATE_DATE_COLUMNS.findSome?
        (fun cand => t.headers.find? (fun h => lowerStr h == lowerStr cand))

/-- Row-retention predicate of the date filter: the parsed date lies in
`[start, end)`; unparseable cells (NaT) drop the row. -/
def keepRow (i startTs endTs : ℕ) (r : List Cell) : Bool :=
  match toDatetime? (cellAt r i) with
  | some d => decide (startTs ≤ d ∧ d < endTs)
  | none => false

/-- A retained row carries the parsed date column (`df_work` replaces it). -/
def coerceDateCell (i : ℕ) (r : List Cell) : List Cell :=
  match toDatetime? (cellAt r i) with
  | some d => r.set i (Cell.cdate d)
  | none => r

/-- `apply_date_range` from date_filter.py. The ISO bounds are parsed with
`pd.to_datetime` (an unparseable bound hits the except branch, which returns
the table); `pd.to_datetime` of a date-only ISO string is that day's
midnight UTC. -/
def apply_date_range (t : Table) (dateCol : String) (startIso endIso : String) : Table :=
  if t.isEmptyDf then t
  else if dateCol == "" then t
  else
    match colIdx t dateCol with
    | none => t
    | some i =>
      if t.rows.all (fun r => (toDatetime? (cellAt r i)).isNone) then t
      else
        match parseIsoDay startIso, parseIsoDay endIso with
        | some sd, some ed =>
          { headers := t.headers,
            rows := (t.rows.filter (keepRow i (sd * 86400) (ed * 86400))).map
              (coerceDateCell i) }
        | _, _ => t

/-! ## KPI values and `_compute_kpis` -/

/-- A value of the output structure. `sqrtv q` denotes `√q` (the
`pandas.Series.std` of a group, recorded by its sample variance); `infv`
denotes the IEEE infinity produced by a nonzero float divided by zero. -/
inductive KVal
  | num (q : ℚ)
  | str (s : String)
  | sqrtv (q : ℚ)
  | infv
deriving DecidableEq

/-- Whether a `KVal` is a plain number. -/
def KVal.isNum : KVal → Bool
  | .num _ => true
  | _ => false

/-- Lookup in an assembled key/value list (Python dict read). -/
def lookupK (kvs : List (String × KVal)) (k : String) : Option KVal :=
  (kvs.find? (fun p => p.1 == k)).map (fun p => p.2)

/-- The void mask of a column: booleans as-is for a bool-dtype column,
otherwise `(x != 0) & notna(x)` (a Python bool compares to 0 by value, any
non-null non-numeric object is `!= 0`). -/
def voidMaskCell (isBool : Bool) (c : Cell) : Bool :=
  if isBool then
    match c with
    | .cbool b => b
    | _ => false
  else
    match c with
    | .cnull => false
    | .cnum q => decide (q ≠ 0)
    | .cbool b => b
    | _ => true

/-- The `Transactions` value and its companion label: distinct order-id count
when the order-id role resolved and is present, else row count / "Line Items". -/
def kpiTransactions (t : Table) (schema : Schema) : ℚ × String :=
  match schema.order_id with
  | some oc =>
    match colIdx t oc with
    | some oi => ((nuniqueCells (colCells t oi) : ℚ), "Transactions")
    | none => ((t.rows.length : ℚ), "Line Items")
  | none => ((t.rows.length : ℚ), "Line Items")

/-- The optional void KPI block, gated on the void-flag role alone. -/
def kpiVoidBlock (t : Table) (schema : Schema) (ai : ℕ) (revenue : ℚ) :
    List (String × KVal) :=
  match schema.void_flag with
  | some vc =>
    match colIdx t vc with
    | some vi =>
      let isBool := seriesIsBool (colCells t vi)
      let voidAmount :=
        sumNums ((t.rows.filter (fun r => voidMaskCell isBool (cellAt r vi))).map
          (fun r => cellAt r ai))
      [("Void $", KVal.num voidAmount),
       ("Void Rate %", KVal.num (if 0 < revenue then voidAmount / revenue * 100 else 0))]
    | none => []
  | none => []

/-- The optional discount KPI block, gated on the discount role alone. -/
def kpiDiscountBlock (t : Table) (schema : Schema) (revenue : ℚ) :
    List (String × KVal) :=
  match schema.discount_amount with
  | some dc =>
    match colIdx t dc with
    | some di =>
      let discountAmount := sumNums (colCells t di)
      [("Discount $", KVal.num discountAmount),
       ("Discount Rate %",
        KVal.num (if 0 < revenue then discountAmount / revenue * 100 else 0))]
    | none => []
  | none => []

/-- The optional removal KPI block, gated on the removal role alone; a
bool-dtype column is a flag (sum the amounts of flagged rows), any other is
an amount column (sum it). -/
def kpiRemovalBlock (t : Table) (schema : Schema) (ai : ℕ) (revenue : ℚ) :
    List (String × KVal) :=
  match schema.removal_flag_or_amount with
  | some rc =>
    match colIdx t rc with
    | some ri =>
      let removalAmount :=
        if seriesIsBool (colCells t ri) then
          sumNums ((t.rows.filter (fun r =>
            match cellAt r ri with | .cbool b => b | _ => false)).map
            (fun r => cellAt r ai))
        else sumNums (colCells t ri)
      [("Removal $", KVal.num removalAmount),
       ("Removal Rate %",
        KVal.num (if 0 < revenue then removalAmount / revenue * 100 else 0))]
    | none => []
  | none => []

/-- `_compute_kpis` from analysis_minimal.py. The `colIdx t amountCol = none`
branch is Python's uncaught `KeyError`; it is unreachable in the pipeline,
where the schema comes from `detect_schema` (see `find_col_mem`). -/
def compute_kpis (t : Table) (schema : Schema) : List (String × KVal) :=
  match schema.amount with
  | none => []
  | some amountCol =>
    match colIdx t amountCol with
    | none => []
    | some ai =>
      let revenue := sumNums (colCells t ai)
      let tx := kpiTransactions t schema
      [("Revenue", KVal.num revenue),
       ("Transactions", KVal.num tx.1),
       ("transactionsLabel", KVal.str tx.2),
       ("Avg Ticket", KVal.num (if 0 < tx.1 then revenue / tx.1 else 0))]
      ++ kpiVoidBlock t schema ai revenue
      ++ kpiDiscountBlock t schema revenue
      ++ kpiRemovalBlock t schema ai revenue

/-- Dataset revenue as the KPI aggregator computes it (0 when the amount role
is unresolved). -/
def revenueOf (t : Table) : ℚ :=
  match (detect_schema t).amount with
  | some a =>
    match colIdx t a with
    | some ai => sumNums (colCells t ai)
    | none => 0
  | none => 0

/-! ## Chart builders -/

def DAY_NAMES : List String := ["Mon", "Tue", "Wed", "Thu", "Fri", "Sat", "Sun"]

def dayOrderFull : List String :=
  ["Monday", "Tuesday", "Wednesday", "Thursday", "Friday", "Saturday", "Sunday"]

structure HourRow where
  hour : ℕ
  netPrice : ℚ
  orderCount : ℕ
deriving DecidableEq

structure DayRow where
  day : String
  netPrice : ℚ
  orderCount : ℕ
deriving DecidableEq

structure HeatCell where
  hour : ℕ
  day : String
  revenue : ℚ
deriving DecidableEq

/-- The hard-required attribution column: the first header equal to
"order date" case-insensitively. -/
def orderDateCol (t : Table) : Option String :=
  t.headers.find? (fun c => lowerStr c == "order date")

/-- Rows with a parseable Order-Date cell, paired with their timestamps
(`dropna(subset=[order_date_col])` after coercion). -/
def validPairs (t : Table) (oi : ℕ) : List (ℕ × List Cell) :=
  t.rows.filterMap (fun r => (toDatetime? (cellAt r oi)).map (fun d => (d, r)))

/-- The parsed Order-Date timestamps that survive the chart builders' dropna
(empty when the role preconditions fail). -/
def orderDateValidTs (t : Table) : List ℕ :=
  match orderDateCol t with
  | none => []
  | some od =>
    match colIdx t od with
    | none => []
    | some oi => (validPairs t oi).map Prod.fst

/-- Whether the order-id aggregation collides with the amount column: the agg
dict then collapses to one entry and the 3-name column rename in the hour and
day builders raises (caught, yielding `[]`). -/
def orderIdCollides (t : Table) (schema : Schema) (amountCol : String) : Bool :=
  match schema.order_id with
  | some oc => decide (oc = amountCol) && (colIdx t oc).isSome
  | none => false

/-- Distinct order-id count of a bucket, 0 when the role is unresolved or its
column is absent (the scaffold then gets a constant zero 'Order Id' column). -/
def bucketOrderCount (t : Table) (schema : Schema) (bucket : List (ℕ × List Cell)) : ℕ :=
  match schema.order_id with
  | some oc =>
    match colIdx t oc with
    | some ci => nuniqueCells (bucket.map (fun p => cellAt p.2 ci))
    | none => 0
  | none => 0

/-- Amount of a chart row: `pd.to_numeric(..., errors='coerce').fillna(0)`. -/
def amountOrZero (r : List Cell) (ai : ℕ) : ℚ :=
  (toNumeric? (cellAt r ai)).getD 0

/-- `_compute_hourly_revenue`: groupby hour left-joined onto the 0..23
scaffold (each scaffold hour carries the sum/nunique over its bucket, 0 when
the bucket is empty — exactly the merge + fillna result). -/
def compute_hourly_revenue (t : Table) (schema : Schema) : List HourRow :=
  match schema.amount with
  | none => []
  | some amountCol =>
    match orderDateCol t with
    | none => []
    | some odCol =>
      match colIdx t amountCol, colIdx t odCol with
      | some ai, some oi =>
        let valid := validPairs t oi
        if valid.isEmpty then []
        else if orderIdCollides t schema amountCol then []
        else
          (List.range 24).map (fun h =>
            let bucket := valid.filter (fun p => hourOfTs p.1 == h)
            { hour := h,
              netPrice := (bucket.map (fun p => amountOrZero p.2 ai)).sum,
              orderCount := bucketOrderCount t schema bucket })
      | _, _ => []

/-- `_compute_day_of_week`: groupby weekday name left-joined onto the
Monday..Sunday scaffold. -/
def compute_day_of_week (t : Table) (schema : Schema) : List DayRow :=
  match schema.amount with
  | none => []
  | some amountCol =>
    match orderDateCol t with
    | none => []
    | some odCol =>
      match colIdx t amountCol, colIdx t odCol with
      | some ai, some oi =>
        let valid := validPairs t oi
        if valid.isEmpty then []
        else if orderIdCollides t schema amountCol then []
        else
          (List.range 7).map (fun di =>
            let bucket := valid.filter (fun p => dayIdxOfTs p.1 == di)
            { day := dayOrderFull.getD di "",
              netPrice := (bucket.map (fun p => amountOrZero p.2 ai)).sum,
              orderCount := bucketOrderCount t schema bucket })
      | _, _ => []

/-- The dense hour × day scaffold (`itertools.product(range(24), DAY_NAMES)`),
already in the final sort order (hour ascending, then calendar day). -/
def heatScaffold : List (ℕ × String) :=
  (List.range 24).flatMap (fun h => DAY_NAMES.map (fun d => (h, d)))

/-- `_compute_revenue_heatmap`: groupby (hour, short day name) left-joined
onto the 168-cell scaffold. The day short name is `DAY_NAMES[dayofweek]` with
the out-of-range guard defaulting to "Mon". -/
def compute_revenue_heatmap (t : Table) (schema : Schema) : List HeatCell :=
  match schema.amount with
  | none => []
  | some amountCol =>
    match orderDateCol t with
    | none => []
    | some odCol =>
      match colIdx t amountCol, colIdx t odCol with
      | some ai, some oi =>
        let valid := validPairs t oi
        if valid.isEmpty then []
        else
          heatScaffold.map (fun hd =>
            let bucket := valid.filter (fun p =>
              hourOfTs p.1 == hd.1 && DAY_NAMES.getD (dayIdxOfTs p.1) "Mon" == hd.2)
            { hour := hd.1, day := hd.2,
              revenue := (bucket.map (fun p => amountOrZero p.2 ai)).sum })
      | _, _ => []

/-! ## Table builders

Pandas reports group keys in sorted order and `sort_values` uses an unstable
quicksort; the models below enumerate group keys in first-occurrence order
and break sort ties stably. No claim depends on the row order of these
tables. -/

/-- A `{columns, data}` table result. -/
structure TableResult where
  columns : List String
  data : List (List (String × KVal))
deriving DecidableEq

/-- A single-cell message table. -/
def msg_table (m : String) : TableResult :=
  ⟨["message"], [[("message", KVal.str m)]]⟩

/-- Stable insertion into a descending-by-key list (`x` goes before the first
element with a strictly smaller key). -/
def insertDescBy {α : Type} (key : α → ℚ) (x : α) : List α → List α
  | [] => [x]
  | y :: ys => if key y < key x then x :: y :: ys else y :: insertDescBy key x ys

/-- Stable descending sort by a rational key. -/
def sortByDesc {α : Type} (key : α → ℚ) : List α → List α
  | [] => []
  | x :: xs => insertDescBy key x (sortByDesc key xs)

/-- Group keys of a pandas `groupby` on column `i`: distinct non-null values
(NaN keys are dropped). -/
def groupKeys (t : Table) (i : ℕ) : List Cell :=
  firstUniques ((colCells t i).filter (fun c => c ≠ Cell.cnull))

/-- The rows of the group keyed by `k` on column `i`. -/
def groupRows (t : Table) (i : ℕ) (k : Cell) : List (List Cell) :=
  t.rows.filter (fun r => cellAt r i == k)

/-- Surfacing a group key (or first-seen value) into the output: strings pass
through; other cells appear via their Python rendering (no claim reads
non-string group labels). -/
def kvalOfCell : Cell → KVal
  | .cnum q => .num q
  | .cstr s => .str s
  | .cbool b => .str (if b then "True" else "False")
  | .cdate ts => .str (isoOfDay (ts / 86400))
  | .cnull => .str "nan"

/-- Sample variance of a list (ddof = 1); `pandas.Series.std` is its square
root. Only defined content for length ≥ 2. -/
def sampleVariance (xs : List ℚ) : ℚ :=
  if xs.length ≤ 1 then 0
  else
    let n : ℚ := xs.length
    let mean := xs.sum / n
    ((xs.map (fun x => (x - mean) ^ 2)).sum) / (n - 1)

/-- `_compute_waste_efficiency` from analysis_minimal.py. -/
def compute_waste_efficiency (t : Table) (schema : Schema) : TableResult :=
  match schema.amount with
  | none => msg_table "Amount column not found"
  | some amountCol =>
    match schema.void_flag with
    | none => msg_table "Void flag column not found"
    | some voidCol =>
      match colIdx t voidCol with
      | none => msg_table "Void flag column not found"
      | some vi =>
        match colIdx t amountCol with
        | none => msg_table "Amount column not found"
        | some ai =>
          let isBool := seriesIsBool (colCells t vi)
          let groups : List (KVal × List (List Cell)) :=
            match schema.category with
            | some catCol =>
              match colIdx t catCol with
              | some ci => (groupKeys t ci).map (fun k => (kvalOfCell k, groupRows t ci k))
              | none => [(KVal.str "All", t.rows)]
            | none => [(KVal.str "All", t.rows)]
          let rows : List (List (String × KVal)) := groups.flatMap (fun g =>
            let rs := g.2
            let revenue := sumNums (rs.map (fun r => cellAt r ai))
            let voidRows := rs.filter (fun r => voidMaskCell isBool (cellAt r vi))
            let voidAmount := sumNums (voidRows.map (fun r => cellAt r ai))
            let voidRate : ℚ := if 0 < revenue then voidAmount / revenue * 100 else 0
            let summaryRow : List (String × KVal) :=
              [("Category", g.1), ("Revenue", KVal.num revenue),
               ("Void_Amount", KVal.num voidAmount), ("Void_Rate_Pct", KVal.num voidRate)]
            match schema.reason with
            | some reasonCol =>
              match colIdx t reasonCol with
              | some ri =>
                let rkeys := firstUniques
                  ((voidRows.map (fun r => cellAt r ri)).filter (fun c => c ≠ Cell.cnull))
                let reasonAgg := rkeys.map (fun rk =>
                  let rrs := voidRows.filter (fun r => cellAt r ri == rk)
                  (rk, sumNums (rrs.map (fun r => cellAt r ai)),
                   rrs.countP (fun r => (toNumeric? (cellAt r ai)).isSome)))
                ((sortByDesc (fun x => x.2.1) reasonAgg).take 10).map (fun x =>
                  [("Category", g.1), ("Reason", kvalOfCell x.1),
                   ("Void_Amount", KVal.num x.2.1), ("Count", KVal.num (x.2.2 : ℚ))])
              | none => [summaryRow]
            | none => [summaryRow])
          let allKeys := rows.flatMap (fun r => r.map Prod.fst)
          let columns := ["Category", "Reason", "Revenue", "Void_Amount",
                          "Void_Rate_Pct", "Count"].filter (fun c => allKeys.contains c)
          ⟨columns, rows.take 100⟩

/-- The diagnostic message table of the employee builder. -/
def employeeMissingMsg (t : Table) : TableResult :=
  msg_table
    ("Employee column not found. Expected aliases: Employee, Server, Server Name, Staff, Created By, User, Bartender. Available columns: "
      ++ String.intercalate ", " (t.headers.take 10))

/-- Void rate of an employee row:
`(Void_Amount / Revenue * 100).fillna(0)` — `0/0` is NaN (filled to 0),
a nonzero amount over zero revenue is a float infinity. -/
def voidRateVal (voidAmount revenue : ℚ) : KVal :=
  if revenue = 0 then (if voidAmount = 0 then .num 0 else .infv)
  else .num (voidAmount / revenue * 100)

/-- `_compute_employee_performance` from analysis_minimal.py. -/
def compute_employee_performance (t : Table) (schema : Schema) : TableResult :=
  match schema.amount with
  | none => msg_table "Amount column not found"
  | some amountCol =>
    match schema.employee with
    | none => employeeMissingMsg t
    | some empCol =>
      match colIdx t empCol with
      | none => employeeMissingMsg t
      | some ei =>
        match colIdx t amountCol with
        | none => msg_table "Amount column not found"
        | some ai =>
          let hasVoid :=
            match schema.void_flag with
            | some vc => (colIdx t vc).isSome
            | none => false
          let keys := groupKeys t ei
          let entries := keys.map (fun k =>
            let rs := groupRows t ei k
            let revenue := sumNums (rs.map (fun r => cellAt r ai))
            let transactions : ℕ :=
              match schema.order_id with
              | some oc =>
                match colIdx t oc with
                | some oi => nuniqueCells (rs.map (fun r => cellAt r oi))
                | none => rs.length
              | none => rs.length
            let voidCols : List (String × KVal) :=
              match schema.void_flag with
              | some vc =>
                match colIdx t vc with
                | some vi =>
                  let isBool := seriesIsBool (colCells t vi)
                  let voidAmount := sumNums
                    ((rs.filter (fun r => voidMaskCell isBool (cellAt r vi))).map
                      (fun r => cellAt r ai))
                  [("Void_Amount", KVal.num voidAmount),
                   ("Void_Rate_Pct", voidRateVal voidAmount revenue)]
                | none => [("Void_Amount", KVal.num 0), ("Void_Rate_Pct", KVal.num 0)]
              | none => [("Void_Amount", KVal.num 0), ("Void_Rate_Pct", KVal.num 0)]
            (revenue,
             [("Server", kvalOfCell k), ("Revenue", KVal.num revenue),
              ("Transactions", KVal.num (transactions : ℚ))] ++
             (if hasVoid then voidCols else [])))
          let sorted := (sortByDesc (fun e => e.1) entries).take 50
          let columns := ["Server", "Revenue", "Transactions"] ++
            (if hasVoid then ["Void_Amount", "Void_Rate_Pct"] else [])
          ⟨columns, sorted.map Prod.snd⟩

/-- `_compute_menu_volatility` from analysis_minimal.py. The `Volatility`
value carries the per-item sample variance of daily revenue under `sqrtv`
(pandas reports its square root); items seen on at most one day get 0. -/
def compute_menu_volatility (t : Table) (schema : Schema) : TableResult :=
  match schema.amount with
  | none => msg_table "Amount column not found"
  | some amountCol =>
    match schema.item with
    | none => msg_table "Item column not found"
    | some itemCol =>
      match colIdx t itemCol with
      | none => msg_table "Item column not found"
      | some ii =>
        match colIdx t amountCol with
        | none => msg_table "Amount column not found"
        | some ai =>
          let hasCat :=
            match schema.category with
            | some cc => (colIdx t cc).isSome
            | none => false
          let keys := groupKeys t ii
          let volatilityOf : Cell → KVal :=
            match schema.datetime with
            | some dtCol =>
              match colIdx t dtCol with
              | some di => fun k =>
                let vrs := (groupRows t ii k).filter (fun r =>
                  (toDatetime? (cellAt r di)).isSome && (toNumeric? (cellAt r ai)).isSome)
                let days := firstUniques (vrs.filterMap (fun r =>
                  (toDatetime? (cellAt r di)).map (fun ts => Cell.cnum ((ts / 86400 : ℕ) : ℚ))))
                let daily := days.map (fun d =>
                  sumNums ((vrs.filter (fun r =>
                    (toDatetime? (cellAt r di)).map
                      (fun ts => Cell.cnum ((ts / 86400 : ℕ) : ℚ)) = some d)).map
                    (fun r => cellAt r ai)))
                if daily.length ≤ 1 then KVal.num 0 else KVal.sqrtv (sampleVariance daily)
              | none => fun _ => KVal.num 0
            | none => fun _ => KVal.num 0
          let entries := keys.map (fun k =>
            let rs := groupRows t ii k
            let revenue := sumNums (rs.map (fun r => cellAt r ai))
            let count := rs.countP (fun r => (toNumeric? (cellAt r ai)).isSome)
            let catCols : List (String × KVal) :=
              match schema.category with
              | some cc =>
                match colIdx t cc with
                | some ci =>
                  [("Category",
                    match (rs.map (fun r => cellAt r ci)).find? (fun c => c ≠ Cell.cnull) with
                    | some c => kvalOfCell c
                    | none => KVal.num 0)]
                | none => []
              | none => []
            (revenue,
             [("Item", kvalOfCell k), ("Revenue", KVal.num revenue),
              ("Count", KVal.num (count : ℚ))] ++ catCols ++
             [("Volatility", volatilityOf k)]))
          let sorted := (sortByDesc (fun e => e.1) entries).take 100
          let columns := ["Item", "Revenue", "Count"] ++
            (if hasCat then ["Category"] else []) ++ ["Volatility"]
          ⟨columns, sorted.map Prod.snd⟩

/-! ## Coverage and `run_full_analysis` -/

structure DataCoverage where
  minDate : Option String
  maxDate : Option String
  rowCount : ℕ
  dateCol : Option String
  columnsSample : List String
deriving DecidableEq

/-- The fallback detection inside `get_data_coverage` when no date column is
passed in. -/
def coverageFallbackDateCol (t : Table) : Option String :=
  match find_date_column t none with
  | some c => some c
  | none => find_datetime_col t

/-- `get_data_coverage` from analysis_minimal.py. -/
def get_data_coverage (t : Table) (dateColIn : Option String) : DataCoverage :=
  if t.isEmptyDf then ⟨none, none, 0, none, []⟩
  else
    let sample := t.headers.take 30
    let dc : Option String :=
      match dateColIn with
      | some c => if c == "" then coverageFallbackDateCol t else some c
      | none => coverageFallbackDateCol t
    match dc with
    | none => ⟨none, none, t.rows.length, none, sample⟩
    | some col =>
      match colIdx t col with
      | none => ⟨none, none, t.rows.length, none, sample⟩
      | some i =>
        let valids := t.rows.filterMap (fun r => toDatetime? (cellAt r i))
        match valids.min?, valids.max? with
        | some mn, some mx =>
          ⟨some (isoOfDay (mn / 86400)), some (isoOfDay (mx / 86400)),
           t.rows.length, some col, sample⟩
        | _, _ => ⟨none, none, t.rows.length, some col, sample⟩

/-- The caller-supplied dateRange parameters (absent fields are `None`). -/
structure DateRangeParams where
  dstart : Option String := none
  dend : Option String := none
  preset : Option String := none
deriving DecidableEq

structure Params where
  dateRange : DateRangeParams := {}
deriving DecidableEq

/-- STEP 1 of `run_full_analysis` (lines 214–241): the defensive
preset-over-explicit guard followed by preset resolution. `maxDay?` is the
dataset max date already parsed back from the coverage ISO string (an
unparseable or absent max date leaves the branch untaken / excepted). -/
def step_one_bounds (dr : DateRangeParams) (dateCol? : Option String) (maxDay? : Option ℕ) :
    Option String × Option String :=
  let ds0 := dr.dstart
  let de0 := dr.dend
  let guarded :=
    if truthyS dr.preset && (truthyS ds0 || truthyS de0) then (none, none) else (ds0, de0)
  let ds := guarded.1
  let de := guarded.2
  if truthyS dr.preset && !(truthyS ds && truthyS de) && truthyS dateCol? && maxDay?.isSome then
    match dr.preset, maxDay? with
    | some p, some md =>
      match compute_preset_window p md with
      | some w => (some w.1, some w.2)
      | none => (ds, de)
    | _, _ => (ds, de)
  else (ds, de)

/-- The filter window `run_full_analysis` actually applies (line 243:
`if date_start and date_end and date_col`); `none` means no filtering. -/
def applied_window (dr : DateRangeParams) (dateCol? : Option String) (maxDay? : Option ℕ) :
    Option (String × String) :=
  match step_one_bounds dr dateCol? maxDay? with
  | (some s, some e) =>
    if !(s == "") && !(e == "") && truthyS dateCol? then some (s, e) else none
  | _ => none

/-- The datetime column `run_full_analysis` detects (schema column first,
then `find_date_column`, then `find_datetime_col`). -/
def analysis_date_col (t : Table) : Option String :=
  match find_date_column t (detect_schema t).datetime with
  | some c => some c
  | none => find_datetime_col t

/-- The schema after lines 199–206 (the detected date column overrides the
schema's datetime slot whenever one was found). -/
def analysis_schema (t : Table) : Schema :=
  let schema := detect_schema t
  match analysis_date_col t with
  | some c => { schema with datetime := some c }
  | none => schema

/-- The dataset max date as a day number: the coverage `maxDate` ISO string
parsed back by `pd.to_datetime`. -/
def analysis_max_day (t : Table) : Option ℕ :=
  match (get_data_coverage t (analysis_date_col t)).maxDate with
  | some s => parseIsoDay s
  | none => none

/-- The table after STEP 1's date filtering. -/
def filtered_table (t : Table) (params : Params) : Table :=
  match applied_window params.dateRange (analysis_date_col t) (analysis_max_day t),
        analysis_date_col t with
  | some w, some col => apply_date_range t col w.1 w.2
  | _, _ => t

structure ChartsOut where
  hour_of_day : List HourRow
  day_of_week : List DayRow
  revenue_heatmap : List HeatCell
  hourly_revenue : List HeatCell
deriving DecidableEq

structure TablesOut where
  waste_efficiency : TableResult
  employee_performance : TableResult
  menu_volatility : TableResult
deriving DecidableEq

structure AnalysisResult where
  clientId : String
  kpis : List (String × KVal)
  charts : ChartsOut
  tables : TablesOut
  dataCoverage : DataCoverage
deriving DecidableEq

/-- `_empty_response` from analysis_minimal.py. -/
def empty_response (clientId : String) : AnalysisResult :=
  { clientId := clientId,
    kpis := [],
    charts := ⟨[], [], [], []⟩,
    tables := ⟨msg_table "No data available", msg_table "No data available",
               msg_table "No data available"⟩,
    dataCoverage := ⟨none, none, 0, none, []⟩ }

/-- `run_full_analysis` from analysis_minimal.py. -/
def run_full_analysis (t : Table) (clientId : String) (params : Params) : AnalysisResult :=
  let schema := analysis_schema t
  let coverage := get_data_coverage t (analysis_date_col t)
  let t' := filtered_table t params
  if t'.isEmptyDf then empty_response clientId
  else
    let heat := compute_revenue_heatmap t' schema
    { clientId := clientId,
      kpis := compute_kpis t' schema,
      charts := ⟨compute_hourly_revenue t' schema, compute_day_of_week t' schema, heat, heat⟩,
      tables := ⟨compute_waste_efficiency t' schema,
                 compute_employee_performance t' schema,
                 compute_menu_volatility t' schema⟩,
      dataCoverage := { coverage with rowCount := t'.rows.length } }

/-! ## `analyze_bottle_conversion`'s effect on the shared sales table -/

/-- `str()` of a cell (only the string case is exercised by any claim). -/
def cellStr : Cell → String
  | .cstr s => s
  | .cnum q => toString q
  | .cbool b => if b then "True" else "False"
  | .cdate ts => isoOfDay (ts / 86400)
  | .cnull => "nan"

/-- Pandas column assignment `df[name] = cells`: an existing column is
replaced in place, a fresh one is appended. -/
def addColumn (t : Table) (name : String) (cells : List Cell) : Table :=
  match colIdx t name with
  | some i => { headers := t.headers, rows := (t.rows.zip cells).map (fun p => p.1.set i p.2) }
  | none => { headers := t.headers ++ [name], rows := (t.rows.zip cells).map (fun p => p.1 ++ [p.2]) }

/-- The state of `data['sales']` after `analyze_bottle_conversion` returns:
when the four required roles resolve, the builder assigns the derived
`is_bottle` column directly on the shared sales frame (htx_tap_analytics.py
line 260) rather than on a copy; the later grouping reads but does not write
the frame, so this assignment is the function's entire effect on it. -/
def analyze_bottle_conversion_sales (sales : Table) : Table :=
  if sales.isEmptyDf then sales
  else
    let menuItemCol := find_column_fuzzy sales ["Menu Item", "menu_item", "Item Name", "item_name"]
    let checkIdCol := find_column_fuzzy sales ["Check Id", "check_id"]
    let serverCol := find_column_fuzzy sales ["Server", "server"]
    let revenueCol := find_column_fuzzy sales ["Net Price", "net_price", "Total Price", "total_price"]
    if truthyS menuItemCol && truthyS checkIdCol && truthyS serverCol && truthyS revenueCol then
      match menuItemCol with
      | some mc =>
        match colIdx sales mc with
        | some mi =>
          addColumn sales "is_bottle"
            (sales.rows.map (fun r =>
              Cell.cbool (strContainsSub (lowerStr (cellStr (cellAt r mi))) "btl")))
        | none => sales
      | none => sales
    else sales

/-! ## Helper lemmas -/

attribute [local semireducible] Rat.add Rat.mul Rat.sub Rat.inv

theorem isoOfDay_ne_empty (n : ℕ) : isoOfDay n ≠ "" := by
  intro h
  have hlen : (isoOfDay n).length = 0 := by rw [h]; rfl
  have hdash : ("-" : String).length = 1 := rfl
  unfold isoOfDay at hlen
  simp only [String.length_append, hdash] at hlen
  omega

theorem insertPy_snd_prop {P : String → Prop} {d : List (String × String)} {k v : String}
    (hd : ∀ p ∈ d, P p.2) (hv : P v) : ∀ p ∈ insertPy d k v, P p.2 := by
  intro p hp
  unfold insertPy at hp
  split at hp
  · rcases List.mem_map.1 hp with ⟨q, hq, hqe⟩
    by_cases h : (q.1 == k) = true
    · rw [if_pos h] at hqe
      subst hqe; exact hv
    · rw [if_neg h] at hqe
      subst hqe; exact hd q hq
  · rcases List.mem_append.1 hp with h | h
    · exact hd p h
    · simp only [List.mem_singleton] at h
      subst h; exact hv

theorem foldl_insertPy_prop {P : String → Prop} :
    ∀ (hs : List String) (d : List (String × String)),
      (∀ p ∈ d, P p.2) → (∀ h ∈ hs, P h) →
      ∀ p ∈ hs.foldl (fun d h => insertPy d (lowerStr h) h) d, P p.2 := by
  intro hs
  induction hs with
  | nil => intro d hd _ p hp; exact hd p hp
  | cons h t ih =>
    intro d hd hh p hp
    rw [List.foldl_cons] at hp
    exact ih _ (insertPy_snd_prop hd (hh h (by simp))) (fun x hx => hh x (by simp [hx])) p hp

theorem normalize_columns_snd_mem {hs : List String} :
    ∀ p ∈ normalize_columns hs, p.2 ∈ hs :=
  foldl_insertPy_prop hs [] (by simp) (fun _ hh => hh)

theorem dictLookup_normalize_mem {hs : List String} {k v : String}
    (h : dictLookup (normalize_columns hs) k = some v) : v ∈ hs := by
  unfold dictLookup at h
  cases hfind : (normalize_columns hs).find? (fun p => p.1 == k) with
  | none => rw [hfind] at h; cases h
  | some p =>
    rw [hfind] at h
    simp only [Option.map_some'] at h
    have hv : p.2 = v := by injection h
    subst hv
    exact normalize_columns_snd_mem p (List.mem_of_find?_eq_some hfind)

theorem find_col_mem {t : Table} {cands : List String} {m : MatchMode} {v : String}
    (h : find_col t cands m = some v) : v ∈ t.headers := by
  unfold find_col at h
  split at h
  · cases h
  · cases h1 : findColPhase1 (normalize_columns t.headers) cands with
    | some w =>
      simp only [h1] at h
      have hw : w = v := by injection h
      subst hw
      rcases List.exists_of_findSome?_eq_some h1 with ⟨c, _, hc⟩
      exact dictLookup_normalize_mem hc
    | none =>
      simp only [h1] at h
      by_cases hm : m = MatchMode.contains
      · rw [if_pos hm] at h
        rcases List.exists_of_findSome?_eq_some h with ⟨c, _, hc⟩
        rcases List.exists_of_findSome?_eq_some hc with ⟨p, hp, hpe⟩
        by_cases hcond : strContainsSub p.1 (lowerStr c) = true
        · rw [if_pos hcond] at hpe
          have hv : p.2 = v := by injection hpe
          subst hv
          exact normalize_columns_snd_mem p hp
        · rw [if_neg hcond] at hpe
          cases hpe
      · rw [if_neg hm] at h
        cases h

theorem findIdx?_isSome_of_exists {α : Type} {p : α → Bool} :
    ∀ (l : List α) (i : ℕ), (∃ x ∈ l, p x = true) → (List.findIdx? p l i).isSome = true := by
  intro l
  induction l with
  | nil => intro i h; simp at h
  | cons a t ih =>
    intro i h
    rw [List.findIdx?_cons]
    by_cases ha : p a = true
    · simp [ha]
    · rcases h with ⟨x, hx, hpx⟩
      rcases List.mem_cons.1 hx with rfl | hx'
      · exact absurd hpx ha
      · simp only [ha, if_neg, Bool.false_eq_true, not_false_eq_true, if_false]
        exact ih (i + 1) ⟨x, hx', hpx⟩

theorem colIdx_isSome_of_mem {t : Table} {c : String} (h : c ∈ t.headers) :
    ∃ i, colIdx t c = some i := by
  have := findIdx?_isSome_of_exists (p := fun h => h == c) t.headers 0 ⟨c, h, by simp⟩
  unfold colIdx
  cases hf : t.headers.findIdx? (fun h => h == c) with
  | none => rw [hf] at this; cases this
  | some i => exact ⟨i, rfl⟩

theorem find?_mem_of_eq_some {α : Type} {p : α → Bool} {l : List α} {a : α}
    (h : l.find? p = some a) : a ∈ l :=
  List.mem_of_find?_eq_some h

theorem findSome?_append_of_none {α β : Type} {f : α → Option β} {l1 l2 : List α}
    (h : ∀ x ∈ l1, f x = none) :
    List.findSome? f (l1 ++ l2) = List.findSome? f l2 := by
  induction l1 with
  | nil => rfl
  | cons a t ih =>
    rw [List.cons_append, List.findSome?_cons, h a (by simp)]
    exact ih (fun x hx => h x (by simp [hx]))

theorem findSome?_guard_eq_find?_map {α β : Type} {p : α → Bool} {f : α → β} :
    ∀ (l : List α),
      List.findSome? (fun x => if p x then some (f x) else none) l = (l.find? p).map f := by
  intro l
  induction l with
  | nil => rfl
  | cons a t ih =>
    rw [List.findSome?_cons]
    by_cases ha : p a = true
    · rw [List.find?_cons_of_pos _ ha]
      simp [ha]
    · rw [List.find?_cons_of_neg _ ha]
      simp only [ha, Bool.false_eq_true, if_false]
      exact ih

theorem findSome?_isSome_iff {α β : Type} {f : α → Option β} :
    ∀ (l : List α), (List.findSome? f l).isSome = true ↔ ∃ x ∈ l, (f x).isSome = true := by
  intro l
  induction l with
  | nil => simp
  | cons a t ih =>
    rw [List.findSome?_cons]
    cases hf : f a with
    | some b => simp [hf]
    | none => simp [hf, ih]

/-! ## C2 — preset window correctness -/

/-- C2: for a `<int><unit>` token with unit `d`/`w`/`y`, the preset window is
`end = max_date + 1 day` (exclusive), `start = end - n·mult days`, both as
date-only ISO strings; any other unit yields the 30-day window; and
`compute_preset_window "30d"` at max date 2024-06-15 is
(2024-05-17, 2024-06-16). -/
theorem c2_preset_window_correct :
    (∀ (p : String) (maxD n : ℕ), strEndsWith p "d" = true →
      strToNat? (strDropRight p 1) = some n → n ≤ maxD + 1 →
      compute_preset_window p maxD =
        some (isoOfDay (maxD + 1 - n), isoOfDay (maxD + 1))) ∧
    (∀ (p : String) (maxD n : ℕ), strEndsWith p "d" = false → strEndsWith p "y" = true →
      strToNat? (strDropRight p 1) = some n → n * 365 ≤ maxD + 1 →
      compute_preset_window p maxD =
        some (isoOfDay (maxD + 1 - n * 365), isoOfDay (maxD + 1))) ∧
    (∀ (p : String) (maxD n : ℕ), strEndsWith p "d" = false → strEndsWith p "y" = false →
      strEndsWith p "w" = true → strToNat? (strDropRight p 1) = some n → n * 7 ≤ maxD + 1 →
      compute_preset_window p maxD =
        some (isoOfDay (maxD + 1 - n * 7), isoOfDay (maxD + 1))) ∧
    (∀ (p : String) (maxD : ℕ), strEndsWith p "d" = false → strEndsWith p "y" = false →
      strEndsWith p "w" = false → 30 ≤ maxD + 1 →
      compute_preset_window p maxD =
        some (isoOfDay (maxD + 1 - 30), isoOfDay (maxD + 1))) ∧
    compute_preset_window "30d" (daysOfCivil 2024 6 15) =
      some ("2024-05-17", "2024-06-16") := by
  refine ⟨?_, ?_, ?_, ?_, by decide⟩
  · intro p maxD n h1 h2 _
    simp [compute_preset_window, preset_window_days, parsePresetDays, h1, h2]
  · intro p maxD n h1 h2 h3 _
    simp [compute_preset_window, preset_window_days, parsePresetDays, h1, h2, h3]
  · intro p maxD n h1 h2 h3 h4 _
    simp [compute_preset_window, preset_window_days, parsePresetDays, h1, h2, h3, h4]
  · intro p maxD h1 h2 h3 _
    simp [compute_preset_window, preset_window_days, parsePresetDays, h1, h2, h3]

/-- Witness for C2 at the token "7d" and max date 2024-06-15. -/
theorem c2_preset_window_correct_witness :
    compute_preset_window "7d" (daysOfCivil 2024 6 15) =
      some (isoOfDay (daysOfCivil 2024 6 15 + 1 - 7), isoOfDay (daysOfCivil 2024 6 15 + 1)) :=
  c2_preset_window_correct.1 "7d" (daysOfCivil 2024 6 15) 7 (by decide) (by decide) (by decide)

/-! ## C3 — date filter boundary and degradation -/

/-- C3: `apply_date_range` returns the table unchanged when the column is
absent or when no cell of it parses; otherwise it retains exactly the rows
whose parsed date lies in `[start, end)` (start inclusive, end exclusive,
unparseable rows dropped); and on a concrete table a row dated exactly
`start` is kept while a row dated exactly `end` is dropped. -/
theorem c3_date_filter_boundary :
    (∀ (t : Table) (col s e : String), colIdx t col = none →
      apply_date_range t col s e = t) ∧
    (∀ (t : Table) (col s e : String) (i : ℕ), colIdx t col = some i →
      (∀ r ∈ t.rows, toDatetime? (cellAt r i) = none) →
      apply_date_range t col s e = t) ∧
    (∀ (t : Table) (col sIso eIso : String) (sd ed i : ℕ),
      col ≠ "" → colIdx t col = some i →
      parseIsoDay sIso = some sd → parseIsoDay eIso = some ed →
      (∃ r ∈ t.rows, (toDatetime? (cellAt r i)).isSome = true) →
      (apply_date_range t col sIso eIso).headers = t.headers ∧
      (apply_date_range t col sIso eIso).rows =
        (t.rows.filter (keepRow i (sd * 86400) (ed * 86400))).map (coerceDateCell i)) ∧
    apply_date_range
        ⟨["Date"], [[Cell.cdate (daysOfCivil 2024 1 1 * 86400)],
                    [Cell.cdate (daysOfCivil 2024 1 8 * 86400)],
                    [Cell.cstr "junk"]]⟩ "Date" "2024-01-01" "2024-01-08" =
      ⟨["Date"], [[Cell.cdate (daysOfCivil 2024 1 1 * 86400)]]⟩ := by
  refine ⟨?_, ?_, ?_, by decide⟩
  · intro t col s e h
    unfold apply_date_range
    split
    · rfl
    · split
      · rfl
      · rw [h]
  · intro t col s e i h hall
    unfold apply_date_range
    split
    · rfl
    · split
      · rfl
      · have hb : (t.rows.all (fun r => (toDatetime? (cellAt r i)).isNone)) = true :=
          List.all_eq_true.2 (fun r hr => by rw [hall r hr]; rfl)
        simp only [h, hb, if_true]
  · intro t col sIso eIso sd ed i hcol h hs he hex
    have hne : t.rows ≠ [] := by
      rcases hex with ⟨r, hr, _⟩
      intro hnil; rw [hnil] at hr; cases hr
    have hhead : t.headers ≠ [] := by
      intro hnil
      unfold colIdx at h
      rw [hnil] at h
      cases h
    have hempty : t.isEmptyDf = false := by
      unfold Table.isEmptyDf
      simp [hne, hhead]
    have hcolb : (col == "") = false := by
      simp [hcol]
    have hnotall : (t.rows.all (fun r => (toDatetime? (cellAt r i)).isNone)) = false := by
      rcases hex with ⟨r, hr, hsome⟩
      apply Bool.eq_false_iff.2
      intro hall
      have hn := List.all_eq_true.1 hall r hr
      rw [Option.isNone_iff_eq_none] at hn
      rw [hn] at hsome
      cases hsome
    unfold apply_date_range
    simp only [hempty, hcolb, h, hnotall, hs, he, Bool.false_eq_true, if_false]
    exact ⟨trivial, trivial⟩

/-- Witness for C3 on a table with one in-window, one out-of-window and one
unparseable row. -/
theorem c3_date_filter_boundary_witness :
    (apply_date_range
        ⟨["Date", "Amount"],
         [[Cell.cdate (daysOfCivil 2024 1 1 * 86400), Cell.cnum 1],
          [Cell.cdate (daysOfCivil 2024 1 8 * 86400), Cell.cnum 2],
          [Cell.cstr "junk", Cell.cnum 3]]⟩ "Date" "2024-01-01" "2024-01-08").rows =
      ((⟨["Date", "Amount"],
         [[Cell.cdate (daysOfCivil 2024 1 1 * 86400), Cell.cnum 1],
          [Cell.cdate (daysOfCivil 2024 1 8 * 86400), Cell.cnum 2],
          [Cell.cstr "junk", Cell.cnum 3]]⟩ : Table).rows.filter
        (keepRow 0 (daysOfCivil 2024 1 1 * 86400) (daysOfCivil 2024 1 8 * 86400))).map
        (coerceDateCell 0) :=
  (c3_date_filter_boundary.2.2.1
    ⟨["Date", "Amount"],
     [[Cell.cdate (daysOfCivil 2024 1 1 * 86400), Cell.cnum 1],
      [Cell.cdate (daysOfCivil 2024 1 8 * 86400), Cell.cnum 2],
      [Cell.cstr "junk", Cell.cnum 3]]⟩ "Date" "2024-01-01" "2024-01-08"
    (daysOfCivil 2024 1 1) (daysOfCivil 2024 1 8) 0
    (by decide) (by decide) (by decide) (by decide)
    ⟨[Cell.cdate (daysOfCivil 2024 1 1 * 86400), Cell.cnum 1], by decide, by decide⟩).2

/-! ## C8 — empty-but-valid output shape -/

/-- C8: an input that is empty after filtering yields exactly the documented
empty-but-valid shape, for every client id. -/
theorem c8_empty_shape :
    ∀ (t : Table) (clientId : String) (params : Params),
      (filtered_table t params).rows = [] →
      run_full_analysis t clientId params =
        { clientId := clientId,
          kpis := [],
          charts := ⟨[], [], [], []⟩,
          tables := ⟨⟨["message"], [[("message", KVal.str "No data available")]]⟩,
                     ⟨["message"], [[("message", KVal.str "No data available")]]⟩,
                     ⟨["message"], [[("message", KVal.str "No data available")]]⟩⟩,
          dataCoverage := ⟨none, none, 0, none, []⟩ } := by
  intro t cid params h
  unfold run_full_analysis
  have hemp : (filtered_table t params).isEmptyDf = true := by
    unfold Table.isEmptyDf
    rw [h]
    rfl
  simp only [hemp, if_true]
  rfl

/-- Witness for C8 at a zero-row table. -/
theorem c8_empty_shape_witness :
    run_full_analysis ⟨["A"], []⟩ "client-1" ⟨⟨none, none, none⟩⟩ =
      { clientId := "client-1",
        kpis := [],
        charts := ⟨[], [], [], []⟩,
        tables := ⟨⟨["message"], [[("message", KVal.str "No data available")]]⟩,
                   ⟨["message"], [[("message", KVal.str "No data available")]]⟩,
                   ⟨["message"], [[("message", KVal.str "No data available")]]⟩⟩,
        dataCoverage := ⟨none, none, 0, none, []⟩ } :=
  c8_empty_shape ⟨["A"], []⟩ "client-1" ⟨⟨none, none, none⟩⟩ (by decide)

/-! ## C10 — builder mutation of the shared sales table -/

/-- C10 (failing input): `analyze_bottle_conversion` does not leave the
shared sales table equal to its input — it appends the derived `is_bottle`
column in place. -/
theorem c10_bottle_conversion_mutates :
    analyze_bottle_conversion_sales
        ⟨["Menu Item", "Check Id", "Server", "Net Price"],
         [[Cell.cstr "BTL Dom", Cell.cnum 1, Cell.cstr "Alice", Cell.cnum 100]]⟩ ≠
      ⟨["Menu Item", "Check Id", "Server", "Net Price"],
       [[Cell.cstr "BTL Dom", Cell.cnum 1, Cell.cstr "Alice", Cell.cnum 100]]⟩ ∧
    (analyze_bottle_conversion_sales
        ⟨["Menu Item", "Check Id", "Server", "Net Price"],
         [[Cell.cstr "BTL Dom", Cell.cnum 1, Cell.cstr "Alice", Cell.cnum 100]]⟩).headers =
      ["Menu Item", "Check Id", "Server", "Net Price", "is_bottle"] := by
  constructor <;> decide

/-! ## C9 — KPI values -/

/-- C9 counterexample: a resolved amount column yields a KPI mapping with the
non-numeric `transactionsLabel` entry, so not every value is numeric. -/
theorem c9_counterexample :
    ((compute_kpis ⟨["Amount"], [[Cell.cnum 5]]⟩
        (detect_schema ⟨["Amount"], [[Cell.cnum 5]]⟩)).all (fun p => p.2.isNum)) = false ∧
    lookupK (compute_kpis ⟨["Amount"], [[Cell.cnum 5]]⟩
        (detect_schema ⟨["Amount"], [[Cell.cnum 5]]⟩)) "transactionsLabel" =
      some (KVal.str "Line Items") := by
  constructor <;> decide

theorem kpiVoidBlock_isNum {t : Table} {schema : Schema} {ai : ℕ} {rev : ℚ} :
    ∀ p ∈ kpiVoidBlock t schema ai rev, p.2.isNum = true := by
  intro p hp
  unfold kpiVoidBlock at hp
  split at hp
  · split at hp
    · simp only [List.mem_cons, List.mem_singleton, List.not_mem_nil, or_false] at hp
      rcases hp with h | h <;> (subst h; rfl)
    · simp at hp
  · simp at hp

theorem kpiDiscountBlock_isNum {t : Table} {schema : Schema} {rev : ℚ} :
    ∀ p ∈ kpiDiscountBlock t schema rev, p.2.isNum = true := by
  intro p hp
  unfold kpiDiscountBlock at hp
  split at hp
  · split at hp
    · simp only [List.mem_cons, List.mem_singleton, List.not_mem_nil, or_false] at hp
      rcases hp with h | h <;> (subst h; rfl)
    · simp at hp
  · simp at hp

theorem kpiRemovalBlock_isNum {t : Table} {schema : Schema} {ai : ℕ} {rev : ℚ} :
    ∀ p ∈ kpiRemovalBlock t schema ai rev, p.2.isNum = true := by
  intro p hp
  unfold kpiRemovalBlock at hp
  split at hp
  · split at hp
    · simp only [List.mem_cons, List.mem_singleton, List.not_mem_nil, or_false] at hp
      rcases hp with h | h <;> (subst h; rfl)
    · simp at hp
  · simp at hp

theorem kpiTransactions_label (t : Table) (schema : Schema) :
    (kpiTransactions t schema).2 = "Transactions" ∨
    (kpiTransactions t schema).2 = "Line Items" := by
  unfold kpiTransactions
  split
  · split
    · left; rfl
    · right; rfl
  · right; rfl

theorem compute_kpis_mem_isNum :
    ∀ (t : Table) (schema : Schema) (p : String × KVal),
      p ∈ compute_kpis t schema → p.1 ≠ "transactionsLabel" → p.2.isNum = true := by
  intro t schema p hp hlabel
  unfold compute_kpis at hp
  split at hp
  · simp at hp
  · split at hp
    · simp at hp
    · simp only [List.cons_append, List.nil_append, List.mem_cons, List.mem_append] at hp
      rcases hp with h | h | h | h | (h | h) | h
      · subst h; rfl
      · subst h; rfl
      · exfalso; exact hlabel (by rw [h])
      · subst h; rfl
      · exact kpiVoidBlock_isNum p h
      · exact kpiDiscountBlock_isNum p h
      · exact kpiRemovalBlock_isNum p h

/-- C9 (amended): every KPI value is numeric except the companion label under
the key `transactionsLabel`, whose value is the string `"Transactions"` or
`"Line Items"` whenever the amount role resolves. -/
theorem c9_kpi_numeric_except_label :
    (∀ (t : Table) (schema : Schema) (k : String) (v : KVal),
      lookupK (compute_kpis t schema) k = some v → k ≠ "transactionsLabel" →
      v.isNum = true) ∧
    (∀ (t : Table) (a : String), (detect_schema t).amount = some a →
      lookupK (compute_kpis t (detect_schema t)) "transactionsLabel" =
          some (KVal.str "Transactions") ∨
      lookupK (compute_kpis t (detect_schema t)) "transactionsLabel" =
          some (KVal.str "Line Items")) := by
  constructor
  · intro t schema k v hl hk
    unfold lookupK at hl
    cases hfind : (compute_kpis t schema).find? (fun p => p.1 == k) with
    | none => rw [hfind] at hl; cases hl
    | some p =>
      rw [hfind] at hl
      simp only [Option.map_some'] at hl
      have hpk : (p.1 == k) = true := @List.find?_some _ (fun q => q.1 == k) p (compute_kpis t schema) hfind
      have hpk' : p.1 = k := by simpa using hpk
      have hv : p.2 = v := by injection hl
      subst hv
      exact compute_kpis_mem_isNum t schema p (List.mem_of_find?_eq_some hfind)
        (by rw [hpk']; exact hk)
  · intro t a ha
    have hfind : find_amount_col t = some a := ha
    have hmem : a ∈ t.headers := find_col_mem hfind
    rcases colIdx_isSome_of_mem hmem with ⟨ai, hai⟩
    unfold compute_kpis
    simp only [ha, hai]
    rcases kpiTransactions_label t (detect_schema t) with h | h
    · left; simp [lookupK, h]
    · right; simp [lookupK, h]

/-- Witness for C9 (amended) at the one-column table: its `Revenue` entry is
numeric, and the label entry is the `"Line Items"` string. -/
theorem c9_kpi_numeric_except_label_witness :
    (KVal.num 5).isNum = true ∧
    (lookupK (compute_kpis ⟨["Amount"], [[Cell.cnum 5]]⟩
        (detect_schema ⟨["Amount"], [[Cell.cnum 5]]⟩)) "transactionsLabel" =
          some (KVal.str "Transactions") ∨
     lookupK (compute_kpis ⟨["Amount"], [[Cell.cnum 5]]⟩
        (detect_schema ⟨["Amount"], [[Cell.cnum 5]]⟩)) "transactionsLabel" =
          some (KVal.str "Line Items")) :=
  ⟨c9_kpi_numeric_except_label.1 ⟨["Amount"], [[Cell.cnum 5]]⟩
      (detect_schema ⟨["Amount"], [[Cell.cnum 5]]⟩) "Revenue" (KVal.num 5)
      (by decide) (by decide),
   c9_kpi_numeric_except_label.2 ⟨["Amount"], [[Cell.cnum 5]]⟩ "Amount" (by decide)⟩

/-! ## C7 — KPI gating -/

theorem lookupK_append_none {l1 l2 : List (String × KVal)} {k : String}
    (h : lookupK l1 k = none) : lookupK (l1 ++ l2) k = lookupK l2 k := by
  unfold lookupK at h ⊢
  rw [List.find?_append]
  cases hf : l1.find? (fun p => p.1 == k) with
  | none => rfl
  | some p => rw [hf] at h; cases h

theorem lookupK_append_some {l1 l2 : List (String × KVal)} {k : String} {v : KVal}
    (h : lookupK l1 k = some v) : lookupK (l1 ++ l2) k = some v := by
  unfold lookupK at h ⊢
  rw [List.find?_append]
  cases hf : l1.find? (fun p => p.1 == k) with
  | none => rw [hf] at h; cases h
  | some p => rw [hf] at h; exact h

theorem lookupK_fst {p1 p2 : String × KVal} {k : String} (h : (p1.1 == k) = true) :
    lookupK [p1, p2] k = some p1.2 := by
  unfold lookupK
  rw [@List.find?_cons_of_pos _ (fun q : String × KVal => q.1 == k) p1 [p2] h]
  rfl

theorem lookupK_snd {p1 p2 : String × KVal} {k : String} (h1 : (p1.1 == k) = false)
    (h2 : (p2.1 == k) = true) :
    lookupK [p1, p2] k = some p2.2 := by
  unfold lookupK
  rw [@List.find?_cons_of_neg _ (fun q : String × KVal => q.1 == k) p1 [p2] (by simp [h1]),
      @List.find?_cons_of_pos _ (fun q : String × KVal => q.1 == k) p2 [] h2]
  rfl

theorem kpiVoidBlock_none {t : Table} {schema : Schema} {ai : ℕ} {rev : ℚ}
    (h : schema.void_flag = none) : kpiVoidBlock t schema ai rev = [] := by
  unfold kpiVoidBlock; rw [h]

theorem kpiDiscountBlock_none {t : Table} {schema : Schema} {rev : ℚ}
    (h : schema.discount_amount = none) : kpiDiscountBlock t schema rev = [] := by
  unfold kpiDiscountBlock; rw [h]

theorem kpiRemovalBlock_none {t : Table} {schema : Schema} {ai : ℕ} {rev : ℚ}
    (h : schema.removal_flag_or_amount = none) : kpiRemovalBlock t schema ai rev = [] := by
  unfold kpiRemovalBlock; rw [h]

theorem kpiVoidBlock_lookup_other {t : Table} {schema : Schema} {ai : ℕ} {rev : ℚ} {k : String}
    (h1 : k ≠ "Void $") (h2 : k ≠ "Void Rate %") :
    lookupK (kpiVoidBlock t schema ai rev) k = none := by
  unfold kpiVoidBlock
  split
  · split
    · simp [lookupK, beq_eq_false_iff_ne.mpr (Ne.symm h1), beq_eq_false_iff_ne.mpr (Ne.symm h2)]
    · rfl
  · rfl

theorem kpiDiscountBlock_lookup_other {t : Table} {schema : Schema} {rev : ℚ} {k : String}
    (h1 : k ≠ "Discount $") (h2 : k ≠ "Discount Rate %") :
    lookupK (kpiDiscountBlock t schema rev) k = none := by
  unfold kpiDiscountBlock
  split
  · split
    · simp [lookupK, beq_eq_false_iff_ne.mpr (Ne.symm h1), beq_eq_false_iff_ne.mpr (Ne.symm h2)]
    · rfl
  · rfl

theorem kpiRemovalBlock_lookup_other {t : Table} {schema : Schema} {ai : ℕ} {rev : ℚ} {k : String}
    (h1 : k ≠ "Removal $") (h2 : k ≠ "Removal Rate %") :
    lookupK (kpiRemovalBlock t schema ai rev) k = none := by
  unfold kpiRemovalBlock
  split
  · split
    · simp [lookupK, beq_eq_false_iff_ne.mpr (Ne.symm h1), beq_eq_false_iff_ne.mpr (Ne.symm h2)]
    · rfl
  · rfl

theorem kpiVoidBlock_shape {t : Table} {schema : Schema} {ai : ℕ} {rev : ℚ} {vc : String} {vi : ℕ}
    (h1 : schema.void_flag = some vc) (h2 : colIdx t vc = some vi) :
    ∃ va : ℚ, kpiVoidBlock t schema ai rev =
      [("Void $", KVal.num va),
       ("Void Rate %", KVal.num (if 0 < rev then va / rev * 100 else 0))] := by
  unfold kpiVoidBlock
  simp only [h1, h2]
  exact ⟨_, rfl⟩

theorem kpiDiscountBlock_shape {t : Table} {schema : Schema} {rev : ℚ} {dc : String} {di : ℕ}
    (h1 : schema.discount_amount = some dc) (h2 : colIdx t dc = some di) :
    ∃ da : ℚ, kpiDiscountBlock t schema rev =
      [("Discount $", KVal.num da),
       ("Discount Rate %", KVal.num (if 0 < rev then da / rev * 100 else 0))] := by
  unfold kpiDiscountBlock
  simp only [h1, h2]
  exact ⟨_, rfl⟩

theorem kpiRemovalBlock_shape {t : Table} {schema : Schema} {ai : ℕ} {rev : ℚ} {rc : String} {ri : ℕ}
    (h1 : schema.removal_flag_or_amount = some rc) (h2 : colIdx t rc = some ri) :
    ∃ ra : ℚ, kpiRemovalBlock t schema ai rev =
      [("Removal $", KVal.num ra),
       ("Removal Rate %", KVal.num (if 0 < rev then ra / rev * 100 else 0))] := by
  unfold kpiRemovalBlock
  simp only [h1, h2]
  exact ⟨_, rfl⟩

theorem lookupK_base_other {t : Table} {schema : Schema} {ai : ℕ} {k : String}
    (h1 : k ≠ "Revenue") (h2 : k ≠ "Transactions") (h3 : k ≠ "transactionsLabel")
    (h4 : k ≠ "Avg Ticket") :
    lookupK [("Revenue", KVal.num (sumNums (colCells t ai))),
       ("Transactions", KVal.num (kpiTransactions t schema).1),
       ("transactionsLabel", KVal.str (kpiTransactions t schema).2),
       ("Avg Ticket", KVal.num (if 0 < (kpiTransactions t schema).1 then
          sumNums (colCells t ai) / (kpiTransactions t schema).1 else 0))] k = none := by
  simp [lookupK, beq_eq_false_iff_ne.mpr (Ne.symm h1), beq_eq_false_iff_ne.mpr (Ne.symm h2),
    beq_eq_false_iff_ne.mpr (Ne.symm h3), beq_eq_false_iff_ne.mpr (Ne.symm h4)]

/-- C7: the void KPI keys are absent (not zero) when the void role does not
resolve; each optional block's presence is equivalent to its own role
resolving (given the amount role), independent of the other roles; and every
rate metric is 0 when revenue, its denominator, is 0. -/
theorem c7_kpi_gating :
    (∀ (t : Table), (detect_schema t).void_flag = none →
      lookupK (compute_kpis t (detect_schema t)) "Void $" = none ∧
      lookupK (compute_kpis t (detect_schema t)) "Void Rate %" = none) ∧
    (∀ (t : Table) (a : String), (detect_schema t).amount = some a →
      ((lookupK (compute_kpis t (detect_schema t)) "Void $").isSome =
        (detect_schema t).void_flag.isSome ∧
       (lookupK (compute_kpis t (detect_schema t)) "Discount $").isSome =
        (detect_schema t).discount_amount.isSome ∧
       (lookupK (compute_kpis t (detect_schema t)) "Removal $").isSome =
        (detect_schema t).removal_flag_or_amount.isSome)) ∧
    (∀ (t : Table) (a : String), (detect_schema t).amount = some a → revenueOf t = 0 →
      ((∀ v : String, (detect_schema t).void_flag = some v →
        lookupK (compute_kpis t (detect_schema t)) "Void Rate %" = some (KVal.num 0)) ∧
       (∀ d : String, (detect_schema t).discount_amount = some d →
        lookupK (compute_kpis t (detect_schema t)) "Discount Rate %" = some (KVal.num 0)) ∧
       (∀ r : String, (detect_schema t).removal_flag_or_amount = some r →
        lookupK (compute_kpis t (detect_schema t)) "Removal Rate %" = some (KVal.num 0)))) := by
  refine ⟨?_, ?_, ?_⟩
  · intro t hv
    unfold compute_kpis
    cases ha : (detect_schema t).amount with
    | none => exact ⟨rfl, rfl⟩
    | some a =>
      have hmem : a ∈ t.headers := find_col_mem (show find_amount_col t = some a from ha)
      rcases colIdx_isSome_of_mem hmem with ⟨ai, hai⟩
      simp only [hai]
      rw [kpiVoidBlock_none hv, List.append_nil]
      constructor
      · refine (lookupK_append_none ?_).trans (kpiRemovalBlock_lookup_other (by decide) (by decide))
        refine (lookupK_append_none ?_).trans (kpiDiscountBlock_lookup_other (by decide) (by decide))
        exact lookupK_base_other (by decide) (by decide) (by decide) (by decide)
      · refine (lookupK_append_none ?_).trans (kpiRemovalBlock_lookup_other (by decide) (by decide))
        refine (lookupK_append_none ?_).trans (kpiDiscountBlock_lookup_other (by decide) (by decide))
        exact lookupK_base_other (by decide) (by decide) (by decide) (by decide)
  · intro t a ha
    have hmem : a ∈ t.headers := find_col_mem (show find_amount_col t = some a from ha)
    rcases colIdx_isSome_of_mem hmem with ⟨ai, hai⟩
    unfold compute_kpis
    simp only [ha, hai]
    refine ⟨?_, ?_, ?_⟩
    · cases hv : (detect_schema t).void_flag with
      | none =>
        rw [kpiVoidBlock_none hv, List.append_nil]
        rw [(lookupK_append_none ((lookupK_append_none
          (lookupK_base_other (by decide) (by decide) (by decide) (by decide))).trans
          (kpiDiscountBlock_lookup_other (by decide) (by decide)))).trans
          (kpiRemovalBlock_lookup_other (by decide) (by decide))]
        rfl
      | some vc =>
        have hvm : vc ∈ t.headers := find_col_mem (show find_void_flag_col t = some vc from hv)
        rcases colIdx_isSome_of_mem hvm with ⟨vi, hvi⟩
        rcases @kpiVoidBlock_shape t (detect_schema t) ai (sumNums (colCells t ai)) _ _ hv hvi with ⟨va, hsh⟩
        rw [hsh]
        rw [lookupK_append_some (lookupK_append_some ((lookupK_append_none
          (lookupK_base_other (by decide) (by decide) (by decide) (by decide))).trans
          (lookupK_fst (by rfl))))]
        rfl
    · cases hd : (detect_schema t).discount_amount with
      | none =>
        rw [kpiDiscountBlock_none hd, List.append_nil]
        rw [(lookupK_append_none ((lookupK_append_none
          (lookupK_base_other (by decide) (by decide) (by decide) (by decide))).trans
          (kpiVoidBlock_lookup_other (by decide) (by decide)))).trans
          (kpiRemovalBlock_lookup_other (by decide) (by decide))]
        rfl
      | some dc =>
        have hdm : dc ∈ t.headers := find_col_mem (show find_discount_amount_col t = some dc from hd)
        rcases colIdx_isSome_of_mem hdm with ⟨di, hdi⟩
        rcases @kpiDiscountBlock_shape t (detect_schema t) (sumNums (colCells t ai)) _ _ hd hdi with ⟨da, hsh⟩
        rw [hsh]
        rw [lookupK_append_some ((lookupK_append_none ((lookupK_append_none
          (lookupK_base_other (by decide) (by decide) (by decide) (by decide))).trans
          (kpiVoidBlock_lookup_other (by decide) (by decide)))).trans
          (lookupK_fst (by rfl)))]
        rfl
    · cases hr : (detect_schema t).removal_flag_or_amount with
      | none =>
        rw [kpiRemovalBlock_none hr, List.append_nil]
        rw [(lookupK_append_none ((lookupK_append_none
          (lookupK_base_other (by decide) (by decide) (by decide) (by decide))).trans
          (kpiVoidBlock_lookup_other (by decide) (by decide)))).trans
          (kpiDiscountBlock_lookup_other (by decide) (by decide))]
        rfl
      | some rc =>
        have hrm : rc ∈ t.headers :=
          find_col_mem (show find_removal_flag_or_amount_col t = some rc from hr)
        rcases colIdx_isSome_of_mem hrm with ⟨ri, hri⟩
        rcases @kpiRemovalBlock_shape t (detect_schema t) ai (sumNums (colCells t ai)) _ _ hr hri with ⟨ra, hsh⟩
        rw [hsh]
        rw [lookupK_append_none ((lookupK_append_none ((lookupK_append_none
          (lookupK_base_other (by decide) (by decide) (by decide) (by decide))).trans
          (kpiVoidBlock_lookup_other (by decide) (by decide)))).trans
          (kpiDiscountBlock_lookup_other (by decide) (by decide)))]
        rw [lookupK_fst (by rfl)]
        rfl
  · intro t a ha hrev
    have hmem : a ∈ t.headers := find_col_mem (show find_amount_col t = some a from ha)
    rcases colIdx_isSome_of_mem hmem with ⟨ai, hai⟩
    have hrev' : sumNums (colCells t ai) = 0 := by
      unfold revenueOf at hrev
      simp only [ha, hai] at hrev
      exact hrev
    have hzero : ∀ x : ℚ, (if 0 < sumNums (colCells t ai) then x else 0) = 0 := by
      intro x
      rw [hrev']
      simp
    refine ⟨?_, ?_, ?_⟩
    · intro v hv
      have hvm : v ∈ t.headers := find_col_mem (show find_void_flag_col t = some v from hv)
      rcases colIdx_isSome_of_mem hvm with ⟨vi, hvi⟩
      unfold compute_kpis
      simp only [ha, hai]
      rcases @kpiVoidBlock_shape t (detect_schema t) ai (sumNums (colCells t ai)) _ _ hv hvi
        with ⟨va, hsh⟩
      rw [hsh]
      rw [lookupK_append_some (lookupK_append_some ((lookupK_append_none
        (lookupK_base_other (by decide) (by decide) (by decide) (by decide))).trans
        (lookupK_snd (by rfl) (by rfl))))]
      rw [hzero]
    · intro d hd
      have hdm : d ∈ t.headers := find_col_mem (show find_discount_amount_col t = some d from hd)
      rcases colIdx_isSome_of_mem hdm with ⟨di, hdi⟩
      unfold compute_kpis
      simp only [ha, hai]
      rcases @kpiDiscountBlock_shape t (detect_schema t) (sumNums (colCells t ai)) _ _ hd hdi
        with ⟨da, hsh⟩
      rw [hsh]
      rw [lookupK_append_some ((lookupK_append_none ((lookupK_append_none
        (lookupK_base_other (by decide) (by decide) (by decide) (by decide))).trans
        (kpiVoidBlock_lookup_other (by decide) (by decide)))).trans
        (lookupK_snd (by rfl) (by rfl)))]
      rw [hzero]
    · intro r hr
      have hrm : r ∈ t.headers :=
        find_col_mem (show find_removal_flag_or_amount_col t = some r from hr)
      rcases colIdx_isSome_of_mem hrm with ⟨ri, hri⟩
      unfold compute_kpis
      simp only [ha, hai]
      rcases @kpiRemovalBlock_shape t (detect_schema t) ai (sumNums (colCells t ai)) _ _ hr hri
        with ⟨ra, hsh⟩
      rw [hsh]
      rw [lookupK_append_none ((lookupK_append_none ((lookupK_append_none
        (lookupK_base_other (by decide) (by decide) (by decide) (by decide))).trans
        (kpiVoidBlock_lookup_other (by decide) (by decide)))).trans
        (kpiDiscountBlock_lookup_other (by decide) (by decide)))]
      rw [lookupK_snd (by rfl) (by rfl)]
      rw [hzero]

/-- Witness for C7 on a table with amount and discount columns but no
void-indicator column: both void keys are absent. -/
theorem c7_kpi_gating_witness :
    lookupK (compute_kpis ⟨["Amount", "Discount"], [[Cell.cnum 10, Cell.cnum 2]]⟩
      (detect_schema ⟨["Amount", "Discount"], [[Cell.cnum 10, Cell.cnum 2]]⟩)) "Void $" = none ∧
    lookupK (compute_kpis ⟨["Amount", "Discount"], [[Cell.cnum 10, Cell.cnum 2]]⟩
      (detect_schema ⟨["Amount", "Discount"], [[Cell.cnum 10, Cell.cnum 2]]⟩)) "Void Rate %" =
      none :=
  c7_kpi_gating.1 ⟨["Amount", "Discount"], [[Cell.cnum 10, Cell.cnum 2]]⟩ (by decide)

/-! ## C5 — resolution order, C6 — normalization invariance -/

theorem foldl_insertPy_fresh :
    ∀ (hs : List String) (d : List (String × String)),
      (∀ x ∈ hs, ∀ p ∈ d, p.1 ≠ lowerStr x) → (hs.map lowerStr).Nodup →
      hs.foldl (fun d h => insertPy d (lowerStr h) h) d =
        d ++ hs.map (fun x => (lowerStr x, x)) := by
  intro hs
  induction hs with
  | nil => intro d _ _; rw [List.foldl_nil, List.map_nil, List.append_nil]
  | cons x xs ih =>
    intro d hfresh hnodup
    rw [List.foldl_cons]
    have hany : (d.any (fun p => p.1 == lowerStr x)) = false := by
      rw [List.any_eq_false]
      intro p hp
      simp only [beq_iff_eq]
      exact hfresh x (by simp) p hp
    have hstep : insertPy d (lowerStr x) x = d ++ [(lowerStr x, x)] := by
      unfold insertPy
      rw [hany]
      simp
    rw [hstep]
    rw [List.map_cons, List.nodup_cons] at hnodup
    have hrec := ih (d ++ [(lowerStr x, x)]) ?_ hnodup.2
    · rw [hrec, List.append_assoc]
      rfl
    · intro y hy p hp
      rcases List.mem_append.1 hp with hp | hp
      · exact hfresh y (by simp [hy]) p hp
      · simp only [List.mem_singleton] at hp
        subst hp
        intro hcon
        have hcon2 : lowerStr x = lowerStr y := hcon
        exact hnodup.1 (by rw [hcon2]; exact List.mem_map_of_mem _ hy)

theorem normalize_columns_of_nodup {hs : List String} (h : (hs.map lowerStr).Nodup) :
    normalize_columns hs = hs.map (fun x => (lowerStr x, x)) := by
  unfold normalize_columns
  rw [foldl_insertPy_fresh hs [] (by simp) h]
  rfl

theorem dictLookup_map (hs : List String) (k : String) :
    dictLookup (hs.map (fun x => (lowerStr x, x))) k =
      hs.find? (fun h => lowerStr h == k) := by
  unfold dictLookup
  rw [List.find?_map]
  rw [Option.map_map]
  have : (fun p : String × String => p.2) ∘ (fun x => (lowerStr x, x)) = fun x => x := rfl
  rw [this, Option.map_id']
  rfl
theorem findSome?_isSome_congr {α β γ : Type} {f : α → Option β} {g : α → Option γ}
    (h : ∀ x, (f x).isSome = (g x).isSome) :
    ∀ l : List α, (List.findSome? f l).isSome = (List.findSome? g l).isSome := by
  intro l
  induction l with
  | nil => rfl
  | cons a t ih =>
    rw [List.findSome?_cons, List.findSome?_cons]
    cases hf : f a with
    | some b =>
      cases hg : g a with
      | some c => rfl
      | none => have := h a; rw [hf, hg] at this; cases this
    | none =>
      cases hg : g a with
      | some c => have := h a; rw [hf, hg] at this; cases this
      | none => exact ih

theorem findSome?_const_some {α β : Type} {f : α → Option β} {b : β}
    (hf : ∀ x, f x = none ∨ f x = some b) :
    ∀ l : List α, List.findSome? f l = some b ↔ ∃ x ∈ l, f x = some b := by
  intro l
  induction l with
  | nil => simp
  | cons a t ih =>
    rw [List.findSome?_cons]
    rcases hf a with ha | ha
    · rw [ha]
      simp only [List.mem_cons]
      constructor
      · intro hh
        rcases ih.1 hh with ⟨x, hx, hfx⟩
        exact ⟨x, Or.inr hx, hfx⟩
      · intro ⟨x, hx, hfx⟩
        rcases hx with rfl | hx
        · rw [ha] at hfx; cases hfx
        · exact ih.2 ⟨x, hx, hfx⟩
    · rw [ha]
      simp only [List.mem_cons]
      exact ⟨fun hh => ⟨a, Or.inl rfl, ha⟩, fun h => trivial⟩

theorem find_col_phase1_wins :
    ∀ (t : Table) (cands : List String) (m : MatchMode) (v : String),
      t.isEmptyDf = false →
      findColPhase1 (normalize_columns t.headers) cands = some v →
      find_col t cands m = some v := by
  intro t cands m v ht h1
  unfold find_col
  simp only [ht, Bool.false_eq_true, if_false, h1]

theorem find_col_candidate_priority :
    ∀ (t : Table) (pre post : List String) (c : String) (m : MatchMode) (v : String),
      t.isEmptyDf = false →
      (∀ x ∈ pre, dictLookup (normalize_columns t.headers) (lowerStr x) = none) →
      dictLookup (normalize_columns t.headers) (lowerStr c) = some v →
      find_col t (pre ++ c :: post) m = some v := by
  intro t pre post c m v ht hpre hc
  apply find_col_phase1_wins t _ m v ht
  unfold findColPhase1
  rw [findSome?_append_of_none hpre, List.findSome?_cons, hc]

theorem find_col_contains_earliest :
    ∀ (hs : List String) (rows : List (List Cell)) (c v : String),
      rows ≠ [] → (hs.map lowerStr).Nodup →
      (∀ h ∈ hs, lowerStr h ≠ lowerStr c) →
      hs.find? (fun h => strContainsSub (lowerStr h) (lowerStr c)) = some v →
      find_col ⟨hs, rows⟩ [c] MatchMode.contains = some v := by
  intro hs rows c v hrows hnodup hnoexact hfind
  have hhs : hs ≠ [] := by
    intro hnil
    rw [hnil] at hfind
    cases hfind
  have hempty : Table.isEmptyDf ⟨hs, rows⟩ = false := by
    unfold Table.isEmptyDf
    cases rows with
    | nil => exact absurd rfl hrows
    | cons r rs =>
      cases hs with
      | nil => exact absurd rfl hhs
      | cons a l => rfl
  have hnorm := normalize_columns_of_nodup hnodup
  have hph1 : findColPhase1 (normalize_columns hs) [c] = none := by
    unfold findColPhase1
    rw [List.findSome?_cons, hnorm, dictLookup_map, List.findSome?_nil]
    have : hs.find? (fun h => lowerStr h == lowerStr c) = none := by
      rw [List.find?_eq_none]
      intro x hx
      simp only [beq_iff_eq]
      exact hnoexact x hx
    rw [this]
  unfold find_col
  simp only [hempty, Bool.false_eq_true, if_false, hph1]
  rw [if_pos trivial]
  unfold findColPhase2
  rw [List.findSome?_cons, hnorm, List.findSome?_map, List.findSome?_nil]
  have hguard := findSome?_guard_eq_find?_map
    (p := fun h : String => strContainsSub (lowerStr h) (lowerStr c)) (f := fun h : String => h) hs
  have hcomp : ((fun p : String × String => if strContainsSub p.1 (lowerStr c) = true
      then some p.2 else none) ∘ (fun x => (lowerStr x, x))) =
      (fun x : String => if strContainsSub (lowerStr x) (lowerStr c) = true then some x else none) :=
    rfl
  rw [hcomp, hguard, hfind]
  rfl

theorem find_col_case_dup_last :
    ∀ (g1 g2 c : String) (rows : List (List Cell)),
      rows ≠ [] → lowerStr g1 = lowerStr g2 → lowerStr c = lowerStr g1 →
      find_col ⟨[g1, g2], rows⟩ [c] MatchMode.exact = some g2 := by
  intro g1 g2 c rows hrows h12 hc
  have hempty : Table.isEmptyDf ⟨[g1, g2], rows⟩ = false := by
    unfold Table.isEmptyDf
    cases rows with
    | nil => exact absurd rfl hrows
    | cons r rs => rfl
  unfold find_col
  simp only [hempty, Bool.false_eq_true, if_false]
  have hdict : normalize_columns [g1, g2] = [(lowerStr g2, g2)] := by
    unfold normalize_columns
    rw [List.foldl_cons, List.foldl_cons, List.foldl_nil]
    have s1 : insertPy [] (lowerStr g1) g1 = [(lowerStr g1, g1)] := rfl
    rw [s1]
    unfold insertPy
    rw [h12]
    simp
  rw [hdict]
  have hph1 : findColPhase1 [(lowerStr g2, g2)] [c] = some g2 := by
    unfold findColPhase1 dictLookup
    rw [List.findSome?_cons]
    rw [@List.find?_cons_of_pos _ (fun p : String × String => p.1 == lowerStr c)
      (lowerStr g2, g2) [] (by simp [hc, h12])]
    rfl
  rw [hph1]

theorem fuzzy_case_dup_first :
    ∀ (g1 g2 c : String) (rows : List (List Cell)),
      rows ≠ [] → normalize_column_name g1 = normalize_column_name g2 →
      normalize_column_name c = normalize_column_name g1 →
      find_column_fuzzy ⟨[g1, g2], rows⟩ [c] = some g1 := by
  intro g1 g2 c rows hrows h12 hc
  have hempty : Table.isEmptyDf ⟨[g1, g2], rows⟩ = false := by
    unfold Table.isEmptyDf
    cases rows with
    | nil => exact absurd rfl hrows
    | cons r rs => rfl
  unfold find_column_fuzzy
  simp only [hempty, Bool.false_eq_true, if_false]
  have hdict : fuzzyDict [g1, g2] = [(normalize_column_name g1, g1)] := by
    unfold fuzzyDict
    rw [List.foldl_cons, List.foldl_cons, List.foldl_nil]
    have s1 : (if ([] : List (String × String)).any
        (fun p => p.1 == normalize_column_name g1) = true then ([] : List (String × String))
        else [] ++ [(normalize_column_name g1, g1)]) = [(normalize_column_name g1, g1)] := rfl
    rw [s1]
    rw [← h12]
    simp
  rw [hdict, List.findSome?_cons]
  unfold dictLookup
  rw [@List.find?_cons_of_pos _ (fun p : String × String => p.1 == normalize_column_name c)
    (normalize_column_name g1, g1) [] (by simp [hc])]
  rfl
theorem findSome?_singleton {α β : Type} (f : α → Option β) (a : α) :
    List.findSome? f [a] = f a := by
  rw [List.findSome?_cons]
  cases f a <;> rfl

theorem fuzzyDict_single (h : String) :
    fuzzyDict [h] = [(normalize_column_name h, h)] := rfl

theorem fuzzy_single_case_congr :
    ∀ (h1 h2 : String) (cands : List String) (r1 r2 : List (List Cell)),
      r1 ≠ [] → r2 ≠ [] → normalize_column_name h1 = normalize_column_name h2 →
      (find_column_fuzzy ⟨[h1], r1⟩ cands).isSome =
        (find_column_fuzzy ⟨[h2], r2⟩ cands).isSome := by
  intro h1 h2 cands r1 r2 hr1 hr2 hn
  have he1 : Table.isEmptyDf ⟨[h1], r1⟩ = false := by
    cases r1 with
    | nil => exact absurd rfl hr1
    | cons a l => rfl
  have he2 : Table.isEmptyDf ⟨[h2], r2⟩ = false := by
    cases r2 with
    | nil => exact absurd rfl hr2
    | cons a l => rfl
  unfold find_column_fuzzy
  simp only [he1, he2, Bool.false_eq_true, if_false]
  refine findSome?_isSome_congr ?_ cands
  intro c
  rw [fuzzyDict_single, fuzzyDict_single]
  unfold dictLookup
  rw [hn]
  by_cases hb : (normalize_column_name h2 == normalize_column_name c) = true
  · rw [@List.find?_cons_of_pos _ (fun p : String × String => p.1 == normalize_column_name c)
      (normalize_column_name h2, h1) [] hb,
      @List.find?_cons_of_pos _ (fun p : String × String => p.1 == normalize_column_name c)
      (normalize_column_name h2, h2) [] hb]
    rfl
  · rw [@List.find?_cons_of_neg _ (fun p : String × String => p.1 == normalize_column_name c)
      (normalize_column_name h2, h1) [] hb,
      @List.find?_cons_of_neg _ (fun p : String × String => p.1 == normalize_column_name c)
      (normalize_column_name h2, h2) [] hb]

theorem find_col_single_case_congr :
    ∀ (h1 h2 : String) (cands : List String) (m : MatchMode) (r1 r2 : List (List Cell)),
      r1 ≠ [] → r2 ≠ [] → lowerStr h1 = lowerStr h2 →
      (find_col ⟨[h1], r1⟩ cands m).isSome = (find_col ⟨[h2], r2⟩ cands m).isSome := by
  intro h1 h2 cands m r1 r2 hr1 hr2 hl
  have he1 : Table.isEmptyDf ⟨[h1], r1⟩ = false := by
    cases r1 with
    | nil => exact absurd rfl hr1
    | cons a l => rfl
  have he2 : Table.isEmptyDf ⟨[h2], r2⟩ = false := by
    cases r2 with
    | nil => exact absurd rfl hr2
    | cons a l => rfl
  have hn1 : normalize_columns [h1] = [(lowerStr h1, h1)] := rfl
  have hn2 : normalize_columns [h2] = [(lowerStr h2, h2)] := rfl
  have hph1 : (findColPhase1 [(lowerStr h1, h1)] cands).isSome =
      (findColPhase1 [(lowerStr h2, h2)] cands).isSome := by
    unfold findColPhase1
    refine findSome?_isSome_congr ?_ cands
    intro c
    unfold dictLookup
    rw [hl]
    by_cases hb : (lowerStr h2 == lowerStr c) = true
    · rw [@List.find?_cons_of_pos _ (fun p : String × String => p.1 == lowerStr c)
        (lowerStr h2, h1) [] hb,
        @List.find?_cons_of_pos _ (fun p : String × String => p.1 == lowerStr c)
        (lowerStr h2, h2) [] hb]
      rfl
    · rw [@List.find?_cons_of_neg _ (fun p : String × String => p.1 == lowerStr c)
        (lowerStr h2, h1) [] hb,
        @List.find?_cons_of_neg _ (fun p : String × String => p.1 == lowerStr c)
        (lowerStr h2, h2) [] hb]
  have hph2 : (findColPhase2 [(lowerStr h1, h1)] cands).isSome =
      (findColPhase2 [(lowerStr h2, h2)] cands).isSome := by
    unfold findColPhase2
    refine findSome?_isSome_congr ?_ cands
    intro c
    rw [findSome?_singleton, findSome?_singleton]
    dsimp only
    rw [hl]
    by_cases hb : strContainsSub (lowerStr h2) (lowerStr c) = true
    · rw [if_pos hb, if_pos hb]
      rfl
    · rw [if_neg hb, if_neg hb]
  unfold find_col
  simp only [he1, he2, Bool.false_eq_true, if_false, hn1, hn2]
  cases hq1 : findColPhase1 [(lowerStr h1, h1)] cands with
  | some v1 =>
    cases hq2 : findColPhase1 [(lowerStr h2, h2)] cands with
    | some v2 => rfl
    | none => rw [hq1, hq2] at hph1; cases hph1
  | none =>
    cases hq2 : findColPhase1 [(lowerStr h2, h2)] cands with
    | some v2 => rw [hq1, hq2] at hph1; cases hph1
    | none =>
      by_cases hm : m = MatchMode.contains
      · rw [if_pos hm, if_pos hm]
        exact hph2
      · rw [if_neg hm, if_neg hm]
/-- C5 counterexample: with headers ["Total", "TOTAL"] (which tie on the exact
phase for candidate "total"), find_col returns the LAST such header "TOTAL"
(Python dict overwrite), not the earliest-position header "Total" that the
first-position tie-break rule would demand. -/
theorem c5_counterexample :
    find_col ⟨["Total", "TOTAL"], [[Cell.cnum 1, Cell.cnum 2]]⟩ ["total"] MatchMode.exact =
      some "TOTAL" ∧
    some "TOTAL" ≠ some "Total" ∧
    List.find? (fun h => lowerStr h == lowerStr "total") ["Total", "TOTAL"] = some "Total" := by
  decide

/-- C5 (amended): column resolution is deterministic; phase 1 (exact) strictly
precedes phase 2 (contains); the earliest matching candidate wins; among headers
tying on the contains phase with distinct lowercase forms the earliest header
position wins; but among headers tying with EQUAL lowercase forms find_col
returns the last such header (dict overwrite) while find_column_fuzzy returns
the first; the Net_Price example resolves to "Net_Price" for both header orders
and both resolvers. -/
theorem c5_resolution_order :
    (∀ (t : Table) (cands : List String) (m : MatchMode) (v : String),
       t.isEmptyDf = false →
       findColPhase1 (normalize_columns t.headers) cands = some v →
       find_col t cands m = some v) ∧
    (∀ (t : Table) (pre post : List String) (c : String) (m : MatchMode) (v : String),
       t.isEmptyDf = false →
       (∀ x ∈ pre, dictLookup (normalize_columns t.headers) (lowerStr x) = none) →
       dictLookup (normalize_columns t.headers) (lowerStr c) = some v →
       find_col t (pre ++ c :: post) m = some v) ∧
    (∀ (hs : List String) (rows : List (List Cell)) (c v : String),
       rows ≠ [] → (hs.map lowerStr).Nodup →
       (∀ h ∈ hs, lowerStr h ≠ lowerStr c) →
       hs.find? (fun h => strContainsSub (lowerStr h) (lowerStr c)) = some v →
       find_col ⟨hs, rows⟩ [c] MatchMode.contains = some v) ∧
    (∀ (g1 g2 c : String) (rows : List (List Cell)),
       rows ≠ [] → lowerStr g1 = lowerStr g2 → lowerStr c = lowerStr g1 →
       find_col ⟨[g1, g2], rows⟩ [c] MatchMode.exact = some g2) ∧
    (∀ (g1 g2 c : String) (rows : List (List Cell)),
       rows ≠ [] → normalize_column_name g1 = normalize_column_name g2 →
       normalize_column_name c = normalize_column_name g1 →
       find_column_fuzzy ⟨[g1, g2], rows⟩ [c] = some g1) ∧
    find_col ⟨["Net_Price", "Total"], [[Cell.cnum 1, Cell.cnum 2]]⟩
      ["net_price", "total"] MatchMode.exact = some "Net_Price" ∧
    find_col ⟨["Total", "Net_Price"], [[Cell.cnum 1, Cell.cnum 2]]⟩
      ["net_price", "total"] MatchMode.exact = some "Net_Price" ∧
    find_column_fuzzy ⟨["Net_Price", "Total"], [[Cell.cnum 1, Cell.cnum 2]]⟩
      ["net_price", "total"] = some "Net_Price" ∧
    find_column_fuzzy ⟨["Total", "Net_Price"], [[Cell.cnum 1, Cell.cnum 2]]⟩
      ["net_price", "total"] = some "Net_Price" :=
  ⟨find_col_phase1_wins, find_col_candidate_priority, find_col_contains_earliest,
   find_col_case_dup_last, fuzzy_case_dup_first,
   by decide, by decide, by decide, by decide⟩

theorem c5_resolution_order_witness :
    find_col ⟨["Order Date"], [[Cell.cnum 1]]⟩ (["nomatch"] ++ "order date" :: [])
      MatchMode.exact = some "Order Date" :=
  c5_resolution_order.2.1 ⟨["Order Date"], [[Cell.cnum 1]]⟩ ["nomatch"] [] "order date"
    MatchMode.exact "Order Date" (by decide) (by decide) (by decide)

/-- C6 counterexample: find_col only lowercases headers, it does not collapse
underscore/hyphen/space separators, so "order_date" fails to resolve against
the candidate "order date" even in contains mode, while "Order Date" succeeds;
yet the two spellings share a normalized form under normalize_column_name. -/
theorem c6_counterexample :
    find_col ⟨["order_date"], [[Cell.cnum 1]]⟩ ["order date"] MatchMode.contains = none ∧
    find_col ⟨["Order Date"], [[Cell.cnum 1]]⟩ ["order date"] MatchMode.contains =
      some "Order Date" ∧
    normalize_column_name "order_date" = normalize_column_name "order date" := by
  decide

/-- C6 (amended): find_column_fuzzy resolution success is invariant under header
respellings with equal normalize_column_name form (case and separator changes),
find_col resolution success is invariant under case changes only, and the three
spellings "Order Date", "order_date", "OrderDate" all resolve (to themselves)
under find_column_fuzzy against the candidate "order date". -/
theorem c6_normalization :
    (∀ (h1 h2 : String) (cands : List String) (r1 r2 : List (List Cell)),
       r1 ≠ [] → r2 ≠ [] → normalize_column_name h1 = normalize_column_name h2 →
       (find_column_fuzzy ⟨[h1], r1⟩ cands).isSome =
         (find_column_fuzzy ⟨[h2], r2⟩ cands).isSome) ∧
    (∀ (h1 h2 : String) (cands : List String) (m : MatchMode) (r1 r2 : List (List Cell)),
       r1 ≠ [] → r2 ≠ [] → lowerStr h1 = lowerStr h2 →
       (find_col ⟨[h1], r1⟩ cands m).isSome = (find_col ⟨[h2], r2⟩ cands m).isSome) ∧
    find_column_fuzzy ⟨["Order Date"], [[Cell.cnum 1]]⟩ ["order date"] = some "Order Date" ∧
    find_column_fuzzy ⟨["order_date"], [[Cell.cnum 1]]⟩ ["order date"] = some "order_date" ∧
    find_column_fuzzy ⟨["OrderDate"], [[Cell.cnum 1]]⟩ ["order date"] = some "OrderDate" :=
  ⟨fuzzy_single_case_congr, find_col_single_case_congr, by decide, by decide, by decide⟩

theorem c6_normalization_witness :
    (find_column_fuzzy ⟨["order_date"], [[Cell.cnum 1]]⟩ ["order date"]).isSome =
      (find_column_fuzzy ⟨["OrderDate"], [[Cell.cnum 2]]⟩ ["order date"]).isSome :=
  c6_normalization.1 "order_date" "OrderDate" ["order date"] [[Cell.cnum 1]] [[Cell.cnum 2]]
    (by decide) (by decide) (by decide)

/-! ## C1 — preset precedence -/

/-- C1: when the dateRange carries both a preset and explicit bounds, the
explicit bounds are discarded — the applied window equals the preset-only
resolution, and (with a detected date column and a known max date) equals
`compute_preset_window` of the preset against the dataset max date; in
particular `{preset:"7d", start:"2024-01-01", end:"2024-01-31"}` resolves to
the 7-day window, not Jan 1–31. -/
theorem c1_preset_precedence :
    (∀ (dr : DateRangeParams) (dc : Option String) (md : Option ℕ),
      truthyS dr.preset = true →
      (truthyS dr.dstart = true ∨ truthyS dr.dend = true) →
      applied_window dr dc md = applied_window ⟨none, none, dr.preset⟩ dc md) ∧
    (∀ (dr : DateRangeParams) (col : String) (md : ℕ) (p : String),
      dr.preset = some p → truthyS dr.preset = true →
      (truthyS dr.dstart = true ∨ truthyS dr.dend = true) → col ≠ "" →
      applied_window dr (some col) (some md) = compute_preset_window p md) ∧
    (applied_window ⟨some "2024-01-01", some "2024-01-31", some "7d"⟩
        (some "Order Date") (some (daysOfCivil 2024 6 15)) =
      some ("2024-06-09", "2024-06-16") ∧
     applied_window ⟨some "2024-01-01", some "2024-01-31", some "7d"⟩
        (some "Order Date") (some (daysOfCivil 2024 6 15)) ≠
      some ("2024-01-01", "2024-01-31")) := by
  refine ⟨?_, ?_, by decide, by decide⟩
  · intro dr dc md h1 h2
    rcases dr with ⟨ds, de, pr⟩
    simp only at h1 h2 ⊢
    have hguard : (truthyS pr && (truthyS ds || truthyS de)) = true := by
      rcases h2 with h2 | h2 <;> simp [h1, h2]
    have hguard2 :
        ¬((truthyS pr &&
            (truthyS (none : Option String) || truthyS (none : Option String))) = true) := by
      simp [truthyS]
    unfold applied_window step_one_bounds
    dsimp only
    rw [if_pos hguard]
    rw [if_neg hguard2]
  · intro dr col md p hp h1 h2 hcol
    rcases dr with ⟨ds, de, pr⟩
    simp only at h1 h2 hp ⊢
    subst hp
    have hguard : (truthyS (some p) && (truthyS ds || truthyS de)) = true := by
      rcases h2 with h2 | h2 <;> simp [h1, h2]
    have hcond : (truthyS (some p) &&
        !(truthyS (none : Option String) && truthyS (none : Option String)) &&
        truthyS (some col) && (some md).isSome) = true := by
      simp [truthyS, hcol] at h1 ⊢
      exact h1
    unfold applied_window step_one_bounds
    dsimp only
    rw [if_pos hguard]
    rw [if_pos hcond]
    cases hw : compute_preset_window p md with
    | none => rfl
    | some w =>
      have hne : w.1 ≠ "" ∧ w.2 ≠ "" := by
        unfold compute_preset_window preset_window_days at hw
        cases hd : parsePresetDays p with
        | none => rw [hd] at hw; cases hw
        | some days =>
          rw [hd] at hw
          simp only [Option.map_some'] at hw
          have hww : (isoOfDay (md + 1 - days), isoOfDay (md + 1)) = w := by injection hw
          rw [← hww]
          exact ⟨isoOfDay_ne_empty _, isoOfDay_ne_empty _⟩
      have hb1 : (w.1 == "") = false := by simp [hne.1]
      have hb2 : (w.2 == "") = false := by simp [hne.2]
      have hcolT : truthyS (some col) = true := by simp [truthyS, hcol]
      simp [hb1, hb2, hcolT]

/-- Witness for C1: the precedence rule applied to the concrete conflicting
dateRange of the spec. -/
theorem c1_preset_precedence_witness :
    applied_window ⟨some "2024-01-01", some "2024-01-31", some "7d"⟩
        (some "Order Date") (some (daysOfCivil 2024 6 15)) =
      applied_window ⟨none, none, some "7d"⟩
        (some "Order Date") (some (daysOfCivil 2024 6 15)) :=
  c1_preset_precedence.1 ⟨some "2024-01-01", some "2024-01-31", some "7d"⟩
    (some "Order Date") (some (daysOfCivil 2024 6 15)) (by decide) (Or.inl (by decide))

theorem bucketOrderCount_nil (t : Table) (s : Schema) : bucketOrderCount t s [] = 0 := by
  unfold bucketOrderCount
  rcases s.order_id with _ | oc
  · rfl
  · dsimp only
    rcases colIdx t oc with _ | ci
    · rfl
    · rfl

set_option maxRecDepth 4000 in
theorem heatScaffold_proj :
    heatScaffold.map (fun hd : ℕ × String => (hd.1, hd.2)) = heatScaffold := by
  decide

theorem range24_map_id : (List.range 24).map (fun h : ℕ => h) = List.range 24 := by
  decide

theorem range7_map_dayName :
    (List.range 7).map (fun di => dayOrderFull.getD di "") = dayOrderFull := by
  decide

theorem orderIdCollides_false {t : Table} {s : Schema} {a : String}
    (h : s.order_id ≠ some a) : orderIdCollides t s a = false := by
  unfold orderIdCollides
  rcases hoc : s.order_id with _ | oc
  · rfl
  · have hne : ¬(oc = a) := fun he => h (by rw [hoc, he])
    dsimp only
    rw [decide_eq_false hne, Bool.false_and]

theorem validPairs_isEmpty_false {t : Table} {od : String} {oi : ℕ}
    (hod : orderDateCol t = some od) (hoi : colIdx t od = some oi)
    (hval : orderDateValidTs t ≠ []) : (validPairs t oi).isEmpty = false := by
  have hvp : validPairs t oi ≠ [] := by
    intro hnil
    apply hval
    unfold orderDateValidTs
    simp only [hod, hoi, hnil, List.map_nil]
  cases hv : validPairs t oi with
  | nil => exact absurd hv hvp
  | cons p l => rfl

theorem mem_orderDateValidTs {t : Table} {od : String} {oi : ℕ}
    (hod : orderDateCol t = some od) (hoi : colIdx t od = some oi)
    {p : ℕ × List Cell} (hp : p ∈ validPairs t oi) : p.1 ∈ orderDateValidTs t := by
  unfold orderDateValidTs
  simp only [hod, hoi]
  exact List.mem_map_of_mem _ hp

theorem heatmap_complete :
    ∀ (t : Table) (a od : String),
      (detect_schema t).amount = some a →
      orderDateCol t = some od →
      orderDateValidTs t ≠ [] →
      (compute_revenue_heatmap t (detect_schema t)).map (fun c => (c.hour, c.day)) =
        heatScaffold ∧
      (∀ hd ∈ heatScaffold,
        (∀ ts ∈ orderDateValidTs t,
          ¬(hourOfTs ts = hd.1 ∧ DAY_NAMES.getD (dayIdxOfTs ts) "Mon" = hd.2)) →
        HeatCell.mk hd.1 hd.2 0 ∈ compute_revenue_heatmap t (detect_schema t)) := by
  intro t a od ha hod hval
  obtain ⟨ai, hai⟩ := colIdx_isSome_of_mem (find_col_mem ha)
  obtain ⟨oi, hoi⟩ := colIdx_isSome_of_mem (find?_mem_of_eq_some hod)
  have hvalid : (validPairs t oi).isEmpty = false := validPairs_isEmpty_false hod hoi hval
  have hch : compute_revenue_heatmap t (detect_schema t) =
      heatScaffold.map (fun hd =>
        { hour := hd.1, day := hd.2,
          revenue := (((validPairs t oi).filter (fun p =>
              hourOfTs p.1 == hd.1 && DAY_NAMES.getD (dayIdxOfTs p.1) "Mon" == hd.2)).map
            (fun p => amountOrZero p.2 ai)).sum }) := by
    unfold compute_revenue_heatmap
    simp only [ha, hod, hai, hoi, hvalid, Bool.false_eq_true, if_false]
  constructor
  · rw [hch, List.map_map]
    exact heatScaffold_proj
  · intro hd hmem hnone
    have hbucket : (validPairs t oi).filter (fun p =>
        hourOfTs p.1 == hd.1 && DAY_NAMES.getD (dayIdxOfTs p.1) "Mon" == hd.2) = [] := by
      rw [List.filter_eq_nil_iff]
      intro p hp
      have hts := hnone p.1 (mem_orderDateValidTs hod hoi hp)
      simp only [Bool.and_eq_true, beq_iff_eq, not_and]
      intro h1 h2
      exact hts ⟨h1, h2⟩
    rw [hch]
    refine List.mem_map.mpr ⟨hd, hmem, ?_⟩
    rw [hbucket]
    rfl

theorem hour_day_complete :
    ∀ (t : Table) (a od : String),
      (detect_schema t).amount = some a →
      orderDateCol t = some od →
      orderDateValidTs t ≠ [] →
      (detect_schema t).order_id ≠ some a →
      (compute_hourly_revenue t (detect_schema t)).map HourRow.hour = List.range 24 ∧
      (∀ h ∈ List.range 24,
        (∀ ts ∈ orderDateValidTs t, hourOfTs ts ≠ h) →
        HourRow.mk h 0 0 ∈ compute_hourly_revenue t (detect_schema t)) ∧
      (compute_day_of_week t (detect_schema t)).map DayRow.day = dayOrderFull ∧
      (∀ di ∈ List.range 7,
        (∀ ts ∈ orderDateValidTs t, dayIdxOfTs ts ≠ di) →
        DayRow.mk (dayOrderFull.getD di "") 0 0 ∈ compute_day_of_week t (detect_schema t)) := by
  intro t a od ha hod hval hnc
  obtain ⟨ai, hai⟩ := colIdx_isSome_of_mem (find_col_mem ha)
  obtain ⟨oi, hoi⟩ := colIdx_isSome_of_mem (find?_mem_of_eq_some hod)
  have hvalid : (validPairs t oi).isEmpty = false := validPairs_isEmpty_false hod hoi hval
  have hcol : orderIdCollides t (detect_schema t) a = false := orderIdCollides_false hnc
  have hch : compute_hourly_revenue t (detect_schema t) =
      (List.range 24).map (fun h =>
        { hour := h,
          netPrice := (((validPairs t oi).filter (fun p => hourOfTs p.1 == h)).map
            (fun p => amountOrZero p.2 ai)).sum,
          orderCount := bucketOrderCount t (detect_schema t)
            ((validPairs t oi).filter (fun p => hourOfTs p.1 == h)) }) := by
    unfold compute_hourly_revenue
    simp only [ha, hod, hai, hoi, hvalid, Bool.false_eq_true, if_false, hcol]
  have hcd : compute_day_of_week t (detect_schema t) =
      (List.range 7).map (fun di =>
        { day := dayOrderFull.getD di "",
          netPrice := (((validPairs t oi).filter (fun p => dayIdxOfTs p.1 == di)).map
            (fun p => amountOrZero p.2 ai)).sum,
          orderCount := bucketOrderCount t (detect_schema t)
            ((validPairs t oi).filter (fun p => dayIdxOfTs p.1 == di)) }) := by
    unfold compute_day_of_week
    simp only [ha, hod, hai, hoi, hvalid, Bool.false_eq_true, if_false, hcol]
  refine ⟨?_, ?_, ?_, ?_⟩
  · rw [hch, List.map_map]
    exact range24_map_id
  · intro h hmem hnone
    have hbucket : (validPairs t oi).filter (fun p => hourOfTs p.1 == h) = [] := by
      rw [List.filter_eq_nil_iff]
      intro p hp
      have hts := hnone p.1 (mem_orderDateValidTs hod hoi hp)
      simp only [beq_iff_eq]
      exact hts
    rw [hch]
    refine List.mem_map.mpr ⟨h, hmem, ?_⟩
    rw [hbucket, bucketOrderCount_nil]
    rfl
  · rw [hcd, List.map_map]
    exact range7_map_dayName
  · intro di hmem hnone
    have hbucket : (validPairs t oi).filter (fun p => dayIdxOfTs p.1 == di) = [] := by
      rw [List.filter_eq_nil_iff]
      intro p hp
      have hts := hnone p.1 (mem_orderDateValidTs hod hoi hp)
      simp only [beq_iff_eq]
      exact hts
    rw [hcd]
    refine List.mem_map.mpr ⟨di, hmem, ?_⟩
    rw [hbucket, bucketOrderCount_nil]
    rfl

theorem charts_empty_of_missing :
    ∀ t : Table,
      ((detect_schema t).amount = none →
        compute_hourly_revenue t (detect_schema t) = [] ∧
        compute_day_of_week t (detect_schema t) = [] ∧
        compute_revenue_heatmap t (detect_schema t) = []) ∧
      (orderDateCol t = none →
        compute_hourly_revenue t (detect_schema t) = [] ∧
        compute_day_of_week t (detect_schema t) = [] ∧
        compute_revenue_heatmap t (detect_schema t) = []) := by
  intro t
  constructor
  · intro ha
    refine ⟨?_, ?_, ?_⟩
    · unfold compute_hourly_revenue
      simp only [ha]
    · unfold compute_day_of_week
      simp only [ha]
    · unfold compute_revenue_heatmap
      simp only [ha]
  · intro ho
    refine ⟨?_, ?_, ?_⟩
    · unfold compute_hourly_revenue
      rcases hsa : (detect_schema t).amount with _ | a
      · rfl
      · simp only [ho]
    · unfold compute_day_of_week
      rcases hsa : (detect_schema t).amount with _ | a
      · rfl
      · simp only [ho]
    · unfold compute_revenue_heatmap
      rcases hsa : (detect_schema t).amount with _ | a
      · rfl
      · simp only [ho]

/-- C4 counterexample: a table whose order-id role resolves to the same header
as the amount role ("Sales Ticket Id"): the amount role resolves, an
"Order Date" header is present, a date parses, yet the hour and day builders
return the empty list (the rename inside them raises and is caught) while the
heatmap still returns its 168 cells. -/
theorem c4_counterexample :
    (detect_schema ⟨["Order Date", "Sales Ticket Id"],
      [[Cell.cdate 0, Cell.cnum 5]]⟩).amount = some "Sales Ticket Id" ∧
    (detect_schema ⟨["Order Date", "Sales Ticket Id"],
      [[Cell.cdate 0, Cell.cnum 5]]⟩).order_id = some "Sales Ticket Id" ∧
    orderDateCol ⟨["Order Date", "Sales Ticket Id"], [[Cell.cdate 0, Cell.cnum 5]]⟩ =
      some "Order Date" ∧
    orderDateValidTs ⟨["Order Date", "Sales Ticket Id"], [[Cell.cdate 0, Cell.cnum 5]]⟩ ≠ [] ∧
    compute_hourly_revenue ⟨["Order Date", "Sales Ticket Id"], [[Cell.cdate 0, Cell.cnum 5]]⟩
      (detect_schema ⟨["Order Date", "Sales Ticket Id"], [[Cell.cdate 0, Cell.cnum 5]]⟩) = [] ∧
    compute_day_of_week ⟨["Order Date", "Sales Ticket Id"], [[Cell.cdate 0, Cell.cnum 5]]⟩
      (detect_schema ⟨["Order Date", "Sales Ticket Id"], [[Cell.cdate 0, Cell.cnum 5]]⟩) = [] := by
  decide

/-- C4 (amended): when the amount role resolves, an "Order Date" header exists
and at least one of its cells parses, the heatmap is always the full zero-filled
168-cell scaffold; the hour chart is the full 0-23 scaffold and the day chart
the full Monday-Sunday scaffold (both zero-filled at empty buckets) provided
additionally that the order-id role does not resolve to the amount column;
when the amount role or the "Order Date" header is missing all three builders
return the empty list. -/
theorem c4_chart_completeness :
    (∀ (t : Table) (a od : String),
      (detect_schema t).amount = some a →
      orderDateCol t = some od →
      orderDateValidTs t ≠ [] →
      (compute_revenue_heatmap t (detect_schema t)).map (fun c => (c.hour, c.day)) =
        heatScaffold ∧
      (∀ hd ∈ heatScaffold,
        (∀ ts ∈ orderDateValidTs t,
          ¬(hourOfTs ts = hd.1 ∧ DAY_NAMES.getD (dayIdxOfTs ts) "Mon" = hd.2)) →
        HeatCell.mk hd.1 hd.2 0 ∈ compute_revenue_heatmap t (detect_schema t))) ∧
    (∀ (t : Table) (a od : String),
      (detect_schema t).amount = some a →
      orderDateCol t = some od →
      orderDateValidTs t ≠ [] →
      (detect_schema t).order_id ≠ some a →
      (compute_hourly_revenue t (detect_schema t)).map HourRow.hour = List.range 24 ∧
      (∀ h ∈ List.range 24,
        (∀ ts ∈ orderDateValidTs t, hourOfTs ts ≠ h) →
        HourRow.mk h 0 0 ∈ compute_hourly_revenue t (detect_schema t)) ∧
      (compute_day_of_week t (detect_schema t)).map DayRow.day = dayOrderFull ∧
      (∀ di ∈ List.range 7,
        (∀ ts ∈ orderDateValidTs t, dayIdxOfTs ts ≠ di) →
        DayRow.mk (dayOrderFull.getD di "") 0 0 ∈ compute_day_of_week t (detect_schema t))) ∧
    (∀ t : Table,
      ((detect_schema t).amount = none →
        compute_hourly_revenue t (detect_schema t) = [] ∧
        compute_day_of_week t (detect_schema t) = [] ∧
        compute_revenue_heatmap t (detect_schema t) = []) ∧
      (orderDateCol t = none →
        compute_hourly_revenue t (detect_schema t) = [] ∧
        compute_day_of_week t (detect_schema t) = [] ∧
        compute_revenue_heatmap t (detect_schema t) = [])) :=
  ⟨heatmap_complete, hour_day_complete, charts_empty_of_missing⟩

theorem c4_chart_completeness_witness :
    (compute_hourly_revenue ⟨["Order Date", "Net Price"], [[Cell.cdate 0, Cell.cnum 5]]⟩
      (detect_schema ⟨["Order Date", "Net Price"], [[Cell.cdate 0, Cell.cnum 5]]⟩)).map
      HourRow.hour = List.range 24 :=
  (c4_chart_completeness.2.1 ⟨["Order Date", "Net Price"], [[Cell.cdate 0, Cell.cnum 5]]⟩
    "Net Price" "Order Date" (by decide) (by decide) (by decide) (by decide)).1
end HTX
